import Mathlib

/-!
# move-gtasks: the date resolver, the task migration pass and the OAuth callback

A shallow embedding of `cmd/root.go` and `cmd/google.go`.

* The Go standard library (`time`, `net/url`, `fmt`) is not part of the repository; the
  operations the program calls are modelled below, each with a doc comment naming the
  library function it stands for.
* The remote Tasks service is a parameter (`Service`): the answers to the list calls and
  an oracle for the outcome of every update call.
* `log.Fatal` terminates the process; it is modelled by the exit value `Exit.fatal`.
-/

namespace MoveGtasks

/-! ## Model of the Go `time` package -/

/-- Go `time.Location`, a zone with its changes of offset: `offset` is the offset, in
seconds east of UTC, in force before the first transition, and `tx` lists the
transitions in order of time, each the instant (seconds since 0001-01-01T00:00:00 UTC)
from which a new offset is in force. -/
structure Location where
  offset : Int
  tx : List (Int × Int)
deriving DecidableEq

/-- Go `Location.lookup(sec)`: the offset in force at the instant `sec`, that of the last
transition not after `sec`. -/
def Location.lookup (l : Location) (sec : Int) : Int :=
  l.tx.foldl (fun cur tr => if tr.1 ≤ sec then tr.2 else cur) l.offset

/-- Go `time.UTC`. -/
def UTC : Location := ⟨0, []⟩

/-- Go `time.FixedZone(name, offset)`: a zone that always has the offset given. -/
def FixedZone (offset : Int) : Location := ⟨offset, []⟩

/-- Go `time.Time`, to the second: `sec` counts seconds since 0001-01-01T00:00:00 UTC (the
instant of the Go zero value `time.Time{}`) and `loc` is the location the value presents
itself in. The sub-second part is left out: no operation the program applies (`YearDay`,
`Format` with second precision, `Add` of whole hours) reads it. -/
structure Time where
  sec : Int
  loc : Location
deriving DecidableEq

/-- The offset of the zone of `t` at the instant of `t`, as Go looks it up whenever it
presents the time (`Time.locabs`). -/
def Time.offset (t : Time) : Int := t.loc.lookup t.sec

/-- The Go zero value `time.Time{}`, which `time.Parse` returns together with an error. -/
def zeroTime : Time := ⟨0, UTC⟩

/-- Go `time.Hour`, a `time.Duration` in nanoseconds. -/
def Hour : Int := 3600 * 1000000000

/-- Go `Time.Add(d)`: `d` is a duration in nanoseconds, of which the whole seconds
(`d / 1e9`, truncated as in Go) move the instant; the location is kept, so the offset
of the result is the one in force at the new instant. -/
def Time.Add (t : Time) (d : Int) : Time :=
  ⟨t.sec + Int.tdiv d 1000000000, t.loc⟩

/-- Go `isLeap`. -/
def isLeap (year : Int) : Bool :=
  year % 4 == 0 && (year % 100 != 0 || year % 400 == 0)

/-- Go `daysBefore`: the number of days in a non-leap year before month `m + 1` begins. -/
def daysBefore : List Nat := [0, 31, 59, 90, 120, 151, 181, 212, 243, 273, 304, 334, 365]

/-- Go `daysIn(m, year)`. -/
def daysIn (month : Nat) (year : Int) : Nat :=
  if month = 2 ∧ isLeap year = true then 29
  else daysBefore.getD month 0 - daysBefore.getD (month - 1) 0

/-- Go `daysSinceEpoch(year)`: the days from the epoch to January 1 of `year`. Go counts
from an absolute epoch that is a multiple of 400 years before year 1; counting from year 1
with floor division gives the same calendar. -/
def daysSinceEpoch (year : Int) : Int :=
  let y := year - 1
  let n := y / 400
  let y := y - 400 * n
  let d := 146097 * n
  let n := y / 100
  let y := y - 100 * n
  let d := d + 36524 * n
  let n := y / 4
  let y := y - 4 * n
  let d := d + 1461 * n
  d + 365 * y

/-- The year part of Go `absDate`: a day count since the epoch is cut into 400-year,
100-year, 4-year and 1-year cycles; the result is the year and the zero-based day in
the year. (`n >> 2` is written `n / 4`.) -/
def absYearDay (days : Int) : Int × Int :=
  let n := days / 146097
  let y := 400 * n
  let d := days - 146097 * n
  let n := d / 36524
  let n := n - n / 4
  let y := y + 100 * n
  let d := d - 36524 * n
  let n := d / 1461
  let y := y + 4 * n
  let d := d - 1461 * n
  let n := d / 365
  let n := n - n / 4
  let y := y + n
  let d := d - 365 * n
  (y + 1, d)

/-- The month part of Go `absDate`: month (1..12) and day of the month of the zero-based
day `yday` of a year that is or is not a leap year. -/
def monthDay (leap : Bool) (yday : Nat) : Nat × Nat :=
  if leap && yday == 31 + 29 - 1 then (2, 29)
  else
    let day := if leap && decide (yday > 31 + 29 - 1) then yday - 1 else yday
    let month := day / 31
    let mend := daysBefore.getD (month + 1) 0
    if day ≥ mend then (month + 2, day - mend + 1)
    else (month + 1, day - daysBefore.getD month 0 + 1)

/-- Go `Time.abs`: the seconds of the wall clock in the zone of `t`. -/
def Time.abs (t : Time) : Int := t.sec + t.offset

/-- The number of the calendar day `t` falls on in its own zone (days since 0001-01-01). -/
def Time.localDay (t : Time) : Int := t.abs / 86400

/-- Go `absDate(abs, true)`: year, month, day of the month and zero-based day of the
year. -/
def absDate (abs : Int) : Int × Nat × Nat × Nat :=
  let yd := absYearDay (abs / 86400)
  let md := monthDay (isLeap yd.1) yd.2.toNat
  (yd.1, md.1, md.2, yd.2.toNat)

/-- Go `Time.YearDay`: the day of the year, 1..365 (1..366 in leap years). -/
def Time.YearDay (t : Time) : Nat := (absDate t.abs).2.2.2 + 1

/-- Go `Time.Date`: year, month and day of `t` in its zone. -/
def Time.Date (t : Time) : Int × Nat × Nat :=
  ((absDate t.abs).1, (absDate t.abs).2.1, (absDate t.abs).2.2.1)

/-- Go `Time.Clock`: hour, minute and second of `t` in its zone. -/
def Time.Clock (t : Time) : Nat × Nat × Nat :=
  let s := (t.abs % 86400).toNat
  (s / 3600, s % 3600 / 60, s % 60)

/-- Go `time.Date(year, month, day, hour, min, sec, 0, time.UTC)` as seconds since the
epoch. `time.Parse` calls it with fields it has range-checked, for which the normalising
steps of `time.Date` are the identity; they are not repeated here. -/
def dateSec (year : Int) (month day hour min sec : Nat) : Int :=
  let d := daysSinceEpoch year + (daysBefore.getD (month - 1) 0 : Nat)
  let d := if isLeap year && decide (month ≥ 3) then d + 1 else d
  let d := d + ((day - 1 : Nat) : Int)
  d * 86400 + ((hour * 3600 + min * 60 + sec : Nat) : Int)

/-! ### Parsing -/

/-- Go `isDigit`. -/
def isDigit (c : Char) : Bool := decide ('0' ≤ c) && decide (c ≤ '9')

/-- The value of a decimal digit, `c - '0'` in Go. -/
def digitVal (c : Char) : Nat := c.toNat - 48

/-- Go `getnum(s, fixed)`: a one- or two-digit number at the head of `s`; with `fixed`
both digits are required. Returns the number and the rest of the input. -/
def getnum (fixed : Bool) : List Char → Option (Nat × List Char)
  | [] => none
  | [a] => if isDigit a && !fixed then some (digitVal a, []) else none
  | a :: b :: rest =>
    if !isDigit a then none
    else if !isDigit b then (if fixed then none else some (digitVal a, b :: rest))
    else some (digitVal a * 10 + digitVal b, rest)

/-- Go `skip(value, lit)` for a one-character literal of the layout: the input has to start
with that character. -/
def skip (lit : Char) : List Char → Option (List Char)
  | [] => none
  | c :: rest => if c = lit then some rest else none

/-- The `stdLongYear` case of Go `time.Parse`: exactly four digits (`atoi` of the first four
bytes, the first of which has to be a digit). -/
def parseLongYear : List Char → Option (Int × List Char)
  | a :: b :: c :: d :: rest =>
    if isDigit a && isDigit b && isDigit c && isDigit d then
      some (((digitVal a * 1000 + digitVal b * 100 + digitVal c * 10 + digitVal d : Nat) : Int),
        rest)
    else none
  | _ => none

/-- The date part shared by both layouts, `2006-01-02`: year, month and day as written,
with the range check on the month that `time.Parse` makes while scanning; the day is
checked against the month by the callers once the input is consumed, as in Go. -/
def parseYMD (value : List Char) : Option (Int × Nat × Nat × List Char) :=
  match parseLongYear value with
  | none => none
  | some (year, v) =>
    match skip '-' v with
    | none => none
    | some v =>
      match getnum true v with
      | none => none
      | some (month, v) =>
        if month = 0 ∨ 12 < month then none
        else
          match skip '-' v with
          | none => none
          | some v =>
            match getnum true v with
            | none => none
            | some (day, v) => some (year, month, day, v)

/-- Go `time.Parse("2006-01-02", value)`: `none` stands for a non-nil error. The result
is midnight UTC of the date. -/
def parseDate (value : String) : Option Time :=
  match parseYMD value.data with
  | none => none
  | some (year, month, day, v) =>
    if v ≠ [] then none
    else if day < 1 ∨ day > daysIn month year then none
    else some ⟨dateSec year month day 0 0 0, UTC⟩

/-- The fractional second `time.Parse` accepts after the seconds although the layout has
none: a period or comma followed by at least one digit. The digits are consumed (their
value is sub-second and not modelled). -/
def skipFraction : List Char → List Char
  | c :: d :: rest =>
    if (c = '.' ∨ c = ',') ∧ isDigit d = true then rest.dropWhile isDigit else c :: d :: rest
  | v => v

/-- The `Z07:00` element of the RFC 3339 layout in Go `time.Parse`: `Z`, or a sign, two
digits, a colon and two digits. Returns the offset in seconds and the rest. -/
def parseZone : List Char → Option (Int × List Char)
  | [] => none
  | s :: value =>
    if s = 'Z' then some (0, value)
    else
      match value with
      | h1 :: h2 :: c :: m1 :: m2 :: rest =>
        if c ≠ ':' then none
        else
          match getnum true [h1, h2], getnum true [m1, m2] with
          | some (hr, _), some (mm, _) =>
            if hr > 24 ∨ mm > 60 then none
            else if s = '+' then some ((((hr * 60 + mm) * 60 : Nat) : Int), rest)
            else if s = '-' then some (-(((hr * 60 + mm) * 60 : Nat) : Int), rest)
            else none
          | _, _ => none
      | _ => none

/-- The time part of the RFC 3339 layout, `T15:04:05`, with the range checks of
`time.Parse`: hour (one or two digits) below 24, minute and second below 60. -/
def parseClock (v : List Char) : Option (Nat × Nat × Nat × List Char) :=
  match skip 'T' v with
  | none => none
  | some v =>
    match getnum false v with
    | none => none
    | some (hour, v) =>
      if 24 ≤ hour then none
      else
        match skip ':' v with
        | none => none
        | some v =>
          match getnum true v with
          | none => none
          | some (min, v) =>
            if 60 ≤ min then none
            else
              match skip ':' v with
              | none => none
              | some v =>
                match getnum true v with
                | none => none
                | some (sec, v) => if 60 ≤ sec then none else some (hour, min, sec, v)

/-- Go `time.Parse(time.RFC3339, value)` (layout `2006-01-02T15:04:05Z07:00`): `none`
stands for a non-nil error. The result is the instant written, presented in the
offset written: UTC for `Z`, else a fixed zone of that offset (Go takes the local zone
instead when it has that very offset at that instant, which presents the same clock). -/
def parseRFC3339 (value : String) : Option Time :=
  match parseYMD value.data with
  | none => none
  | some (year, month, day, v) =>
    match parseClock v with
    | none => none
    | some (hour, min, sec, v) =>
      match parseZone (skipFraction v) with
      | none => none
      | some (off, v) =>
        if v ≠ [] then none
        else if day < 1 ∨ day > daysIn month year then none
        else some ⟨dateSec year month day hour min sec - off, FixedZone off⟩

/-! ### Formatting -/

/-- The character of a decimal digit. -/
def digitChar (n : Nat) : Char := Char.ofNat (n + 48)

/-- Go `appendInt(b, x, width)`: decimal, zero-padded to `width`, with a minus sign for a
negative number. -/
def appendInt (x : Int) (width : Nat) : List Char :=
  let digits := Nat.toDigits 10 x.natAbs
  let padded := List.replicate (width - digits.length) '0' ++ digits
  if x < 0 then '-' :: padded else padded

/-- Go `t.Format("2006-01-02")`. -/
def Time.FormatDate (t : Time) : String :=
  String.mk (appendInt t.Date.1 4 ++ '-' :: appendInt t.Date.2.1 2
    ++ '-' :: appendInt t.Date.2.2 2)

/-- The `Z07:00` element of Go `Time.Format`: `Z` for offset zero, else sign, hours, colon
and minutes of the offset (`offset / 60` truncated as in Go). -/
def formatZone (offset : Int) : List Char :=
  if offset = 0 then ['Z']
  else
    let zone := Int.tdiv offset 60
    let sign := if zone < 0 then '-' else '+'
    let zone := zone.natAbs
    sign :: (appendInt (zone / 60 : Nat) 2 ++ ':' :: appendInt (zone % 60 : Nat) 2)

/-- Go `t.Format(time.RFC3339)`. -/
def Time.FormatRFC3339 (t : Time) : String :=
  String.mk (t.FormatDate.data ++ 'T' :: appendInt t.Clock.1 2
    ++ ':' :: appendInt t.Clock.2.1 2 ++ ':' :: appendInt t.Clock.2.2 2
    ++ formatZone t.offset)

/-! ## `cmd/root.go`: the date resolver -/

/-- The Go struct `timeTargets`. -/
structure timeTargets where
  To : Time
  From : Time
deriving DecidableEq

/-- The Go function `parseTimeTargets(userTo, userFrom)`. The two readings of the clock,
`time.Now()` in the first and in the second `switch`, are the parameters `nowTo` and
`nowFrom`. The result is `.error msg` for `fmt.Errorf(msg)`. -/
def parseTimeTargets (nowTo nowFrom : Time) (userTo userFrom : String) :
    Except String timeTargets :=
  let to_ : Option Time :=
    if userTo = "tomorrow" then some (nowTo.Add (24 * Hour))
    else if userTo = "yesterday" then some (nowTo.Add (-24 * Hour))
    else if userTo = "today" then some nowTo
    else parseDate userTo
  match to_ with
  | none => .error "unable to parse the value of \"to\""
  | some to_ =>
    let from_ : Option Time :=
      if userFrom = "tomorrow" then some (nowFrom.Add (24 * Hour))
      else if userFrom = "yesterday" then some (nowFrom.Add (-24 * Hour))
      else if userFrom = "today" then some nowFrom
      else parseDate userFrom
    match from_ with
    | none => .error "unable to parse the value of \"from\""
    | some from_ => .ok { To := to_, From := from_ }

/-! ## `cmd/root.go`: the migration pass of `rootCmd.Run` -/

/-- The fields of `tasks.TaskList` the program reads. -/
structure TaskList where
  Id : String
  Title : String
deriving DecidableEq

/-- The fields of `tasks.Task` in the data model: identifier, title, status and due
date (a timestamp string, empty when the task has none). -/
structure Task where
  Id : String
  Title : String
  Status : String
  Due : String
deriving DecidableEq

/-- The remote Tasks service as the run sees it: the answer to
`Tasklists.List().MaxResults(10).Do()`, the answer to `Tasks.List(id).Do()` for each list
identifier, and the error (or `none`) of the `n`-th call `Tasks.Update(list, id, t).Do()`
of the run. -/
structure Service where
  tasklists : Except String (List TaskList)
  tasks : String → Except String (List Task)
  update : Nat → String → String → Task → Option String

/-- What the run does that is visible outside: remote calls and printed text. -/
inductive Event where
  | listTasklists
  | listTasks (listId : String)
  | update (listId taskId : String) (task : Task)
  | print (text : String)
deriving DecidableEq

/-- How the run ends: `done` is the return of `Run` (exit status 0), `fatal msg` is
`log.Fatal` (message on standard error, exit status 1), `nilDeref` is the panic of
reading a field through the nil `targetTaskList`. -/
inductive Exit where
  | done
  | fatal (msg : String)
  | nilDeref
deriving DecidableEq

/-- A run: its events in program order and how it ended. -/
structure Run where
  events : List Event
  exit : Exit
deriving DecidableEq

/-- The loop of lines 89-97 over `r.Items`: the first iteration already leaves the loop,
with `break` when the title is "My Tasks" and with `log.Fatal` otherwise, because the
call of `log.Fatal` stands inside the loop body. `.ok none` is the loop ending with
`targetTaskList` still nil. -/
def findTargetTaskList : List TaskList → Except String (Option TaskList)
  | [] => .ok none
  | tasklist :: _ =>
    if tasklist.Title = "My Tasks" then .ok (some tasklist)
    else .error "There was no task list called \"My Tasks\""

/-- The loop of lines 106-122 over `tsks.Items`, with `acc` for `tasksToUpdate`. The
error of `time.Parse` is discarded (`duedate, _ :=`), so an unparsable due string gives
the zero time; the `err` tested next is the variable of the enclosing function. -/
def tasksToUpdate (err : Option String) (From : Time) : List Task → List Task →
    Except String (List Task)
  | [], acc => .ok acc
  | task :: rest, acc =>
    if task.Status = "completed" ∨ task.Due = "" then tasksToUpdate err From rest acc
    else
      let duedate := (parseRFC3339 task.Due).getD zeroTime
      match err with
      | some e => .error ("couldn't parse the due date" ++ e ++ "task:" ++ task.Title)
      | none =>
        if duedate.YearDay = From.YearDay then tasksToUpdate err From rest (acc ++ [task])
        else tasksToUpdate err From rest acc

/-- The line `Failed to move task: …` printed for a failed update. -/
def failedText (t : Task) (To : Time) (e : String) : String :=
  "Failed to move task: " ++ t.Title ++ " (" ++ t.Id ++ ") to " ++ To.FormatDate
    ++ "\n with error: " ++ e

/-- The line `Moved Task: …` printed for a successful update. -/
def movedText (t : Task) (To : Time) : String :=
  "Moved Task: " ++ t.Title ++ " (" ++ t.Id ++ ") to " ++ To.FormatDate ++ "\n"

/-- The assignment `t.Due = timeTargets.To.Format(time.RFC3339)` of line 125. -/
def setDue (t : Task) (To : Time) : Task := { t with Due := To.FormatRFC3339 }

/-- The loop of lines 124-132 over `tasksToUpdate`; `n` is the number of update calls made
so far. Each iteration rewrites the due date, issues the update call and prints one
line. -/
def updateLoop (srv : Service) (listId : String) (To : Time) : List Task → Nat → List Event
  | [], _ => []
  | t :: rest, n =>
    let t := setDue t To
    .update listId t.Id t ::
      .print (match srv.update n listId t.Id t with
        | some e => failedText t To e
        | none => movedText t To) ::
      updateLoop srv listId To rest (n + 1)

/-- Lines 77-132 of `rootCmd.Run`: everything after the Tasks client exists. -/
def migrate (srv : Service) (tt : timeTargets) : Run :=
  match srv.tasklists with
  | .error e => ⟨[.listTasklists], .fatal ("Unable to retrieve task lists. " ++ e)⟩
  | .ok items =>
    if items.length = 0 then ⟨[.listTasklists, .print "No task lists found."], .done⟩
    else
      match findTargetTaskList items with
      | .error msg => ⟨[.listTasklists], .fatal msg⟩
      | .ok none => ⟨[.listTasklists], .nilDeref⟩
      | .ok (some target) =>
        match srv.tasks target.Id with
        | .error _ =>
          ⟨[.listTasklists, .listTasks target.Id],
            .fatal ("Unable to get tasks from list" ++ target.Title)⟩
        | .ok tsks =>
          match tasksToUpdate none tt.From tsks [] with
          | .error msg => ⟨[.listTasklists, .listTasks target.Id], .fatal msg⟩
          | .ok selected =>
            ⟨.listTasklists :: .listTasks target.Id :: updateLoop srv target.Id tt.To selected 0,
              .done⟩

/-- The remote store after a run: every update call that succeeded replaced the task
with that identifier by the task sent. -/
def applyUpdate (tsks : List Task) (taskId : String) (t : Task) : List Task :=
  tsks.map (fun old => if old.Id = taskId then t else old)

/-! ## `cmd/google.go`: the callback handler -/

/-- Go `url.Values.Get(key)` on the parsed query, kept as the list of its key-value pairs
in the order of the request: the first value of the key, or the empty string. -/
def Get (query : List (String × String)) (key : String) : String :=
  match query.find? (fun kv => kv.1 = key) with
  | some kv => kv.2
  | none => ""

/-- The constant `errorHTML` with its `%s` filled in by `fmt.Fprintf`. -/
def errorHTML (err : String) : String :=
  "<h1>Google Task Mover</h1>\n<p>There was an error completing the oauth Workflow: "
    ++ err ++ "</p>"

/-- The constant `successHTML`. -/
def successHTML : String :=
  "<h1>Google Task Mover</h1>\n<p>Received the code from Google. You can close this window.</p>"

/-- The state of `tokenChan`, a channel of capacity one with a single receive in the
program (`authCode := <-tokenChan` in `getTokenFromWeb`): `received` is the value the
authorization flow has received, `none` while it still waits; `parked` is a value sent
after that, which stays in the one-slot buffer because nothing receives again. The
listener keeps serving after the receive (`startServer` works on a copy of the server,
so `Shutdown` on the original does not stop it), so the handler can run in every
state. -/
structure Channel where
  received : Option String
  parked : Option String
deriving DecidableEq

/-- The channel when the listener starts: nothing sent, the flow waiting. -/
def emptyChannel : Channel := ⟨none, none⟩

/-- What one call of the handler does: the channel it leaves and the page it writes,
`none` when it writes nothing because it blocks in the send. -/
structure Response where
  chan : Channel
  body : Option String
deriving DecidableEq

/-- The send `tokenChan <- code`: the first value goes to the waiting flow, the second
fills the buffer, and with the buffer full the send blocks for good (`none`). -/
def send (ch : Channel) (code : String) : Option Channel :=
  match ch.received, ch.parked with
  | none, _ => some { ch with received := some code }
  | some _, none => some { ch with parked := some code }
  | some _, some _ => none

/-- The handler registered by `startServer` for the route `/`, on the state of
`tokenChan` and the query of the request. -/
def handler (ch : Channel) (query : List (String × String)) : Response :=
  let err := Get query "error"
  if err.length ≠ 0 then ⟨ch, some (errorHTML err)⟩
  else
    let code := Get query "code"
    match send ch code with
    | none => ⟨ch, none⟩
    | some ch => ⟨ch, some successHTML⟩

/-! ## Words of the specification -/

/-- The text `YYYY-MM-DD` of a calendar date: four digits of the year, two of the month,
two of the day, zero-padded. -/
def isoDate (y m d : Nat) : String :=
  String.mk [digitChar (y / 1000 % 10), digitChar (y / 100 % 10), digitChar (y / 10 % 10),
    digitChar (y % 10), '-', digitChar (m / 10 % 10), digitChar (m % 10), '-',
    digitChar (d / 10 % 10), digitChar (d % 10)]

/-- A valid `YYYY-MM-DD` date: the text of a date of the calendar, with a year of four
digits, a month from 1 to 12 and a day that exists in that month of that year. -/
def IsISODate (s : String) : Prop :=
  ∃ y m d : Nat, y ≤ 9999 ∧ 1 ≤ m ∧ m ≤ 12 ∧ 1 ≤ d ∧ d ≤ daysIn m y ∧ s = isoDate y m d

/-- One of the three symbolic dates, spelled exactly. -/
def IsSymbolic (s : String) : Prop := s = "today" ∨ s = "tomorrow" ∨ s = "yesterday"

/-- An input the date resolver is specified to accept. -/
def IsValidInput (s : String) : Prop := IsSymbolic s ∨ IsISODate s

/-- The date that follows the date `(year, month, day)` in the calendar. -/
def nextDate (c : Int × Nat × Nat) : Int × Nat × Nat :=
  if c.2.2 < daysIn c.2.1 c.1 then (c.1, c.2.1, c.2.2 + 1)
  else if c.2.1 < 12 then (c.1, c.2.1 + 1, 1)
  else (c.1 + 1, 1, 1)

/-- The number of the day `(year, month, day)`, counted from 0001-01-01 as `time.Date`
counts: the days before the year, before the month (with February 29 of a leap year) and
before the day. -/
def dayNumber (year : Int) (month day : Nat) : Int :=
  daysSinceEpoch year +
    ((daysBefore.getD (month - 1) 0 + (if isLeap year && decide (month ≥ 3) then 1 else 0)
      + (day - 1) : Nat) : Int)

/-- A zone on UTC-4 whose clocks go back to UTC-5 on 2026-11-01 at 06:00 UTC, the end of
daylight saving time on the east coast of North America. -/
def fallBackZone : Location := ⟨-14400, [(63929109600, -18000)]⟩

/-- The resolver's contract for one input: what the time `t` it resolves `input` to has
to be, given the reading `now` of the clock. "today" is the current time; "tomorrow" and
"yesterday" are the same time of day on the calendar day after and before the current
one; a `YYYY-MM-DD` text is that calendar date. -/
def Resolves (now : Time) (input : String) (t : Time) : Prop :=
  (input = "today" → t = now)
  ∧ (input = "tomorrow" → t.localDay = now.localDay + 1 ∧ t.Date = nextDate now.Date
      ∧ t.Clock = now.Clock ∧ t.offset = now.offset)
  ∧ (input = "yesterday" → t.localDay = now.localDay - 1 ∧ nextDate t.Date = now.Date
      ∧ t.Clock = now.Clock ∧ t.offset = now.offset)
  ∧ (∀ y m d : Nat, y ≤ 9999 → 1 ≤ m → m ≤ 12 → 1 ≤ d → d ≤ daysIn m y →
      input = isoDate y m d → t.Date = ((y : Int), m, d))

/-- The update calls among the events of a run, in order: list identifier, task
identifier and the task sent. -/
def updateCalls : List Event → List (String × String × Task)
  | [] => []
  | .update l id t :: rest => (l, id, t) :: updateCalls rest
  | .listTasklists :: rest => updateCalls rest
  | .listTasks _ :: rest => updateCalls rest
  | .print _ :: rest => updateCalls rest

/-- The tasks of the remote list after the events of a run in which every update call
succeeded. -/
def applyUpdates (tsks : List Task) : List Event → List Task
  | [] => tsks
  | .update _ id t :: rest => applyUpdates (applyUpdate tsks id t) rest
  | .listTasklists :: rest => applyUpdates tsks rest
  | .listTasks _ :: rest => applyUpdates tsks rest
  | .print _ :: rest => applyUpdates tsks rest

/-- A service with the single list "My Tasks" holding `tsks`, on which every update
succeeds. -/
def serviceOf (tsks : List Task) : Service :=
  ⟨.ok [⟨"L", "My Tasks"⟩], fun _ => .ok tsks, fun _ _ _ _ => none⟩

/-- The zone designator of an RFC 3339 timestamp: `Z` (or `z`), or a numeric offset with
its sign, hours and minutes. -/
inductive ZoneText where
  | z (lower : Bool)
  | num (neg : Bool) (hh mm : Nat)
deriving DecidableEq

/-- The fields of an RFC 3339 timestamp (RFC 3339, section 5.6): the date, the separator
(`T`, or `t` when `lowerT`), the time of day, the digits of the fraction of a second
(none when the list is empty) and the zone designator. -/
structure Timestamp where
  year : Nat
  month : Nat
  day : Nat
  lowerT : Bool
  hour : Nat
  minute : Nat
  second : Nat
  frac : List Nat
  zone : ZoneText
deriving DecidableEq

/-- Two decimal digits, zero-padded. -/
def twoDigits (n : Nat) : List Char := [digitChar (n / 10 % 10), digitChar (n % 10)]

/-- The text of a zone designator. -/
def ZoneText.text : ZoneText → List Char
  | .z false => ['Z']
  | .z true => ['z']
  | .num neg hh mm => (if neg then '-' else '+') :: (twoDigits hh ++ ':' :: twoDigits mm)

/-- The offset a zone designator denotes, in seconds east of UTC. -/
def ZoneText.seconds : ZoneText → Int
  | .z _ => 0
  | .num false hh mm => (((hh * 60 + mm) * 60 : Nat) : Int)
  | .num true hh mm => -(((hh * 60 + mm) * 60 : Nat) : Int)

/-- The text of a timestamp, as RFC 3339 writes it. -/
def Timestamp.text (ts : Timestamp) : String :=
  String.mk ((isoDate ts.year ts.month ts.day).data
    ++ (if ts.lowerT then 't' else 'T') :: (twoDigits ts.hour ++ ':' :: (twoDigits ts.minute
    ++ ':' :: (twoDigits ts.second
    ++ ((if ts.frac = [] then [] else '.' :: ts.frac.map digitChar) ++ ts.zone.text)))))

/-- The restrictions of RFC 3339 (sections 5.6 and 5.7) on the fields: a date of the
calendar, an hour up to 23, a minute up to 59, a second up to 60 (a leap second), decimal
digits in the fraction and an offset of at most 23:59. -/
def Timestamp.Valid (ts : Timestamp) : Prop :=
  ts.year ≤ 9999 ∧ 1 ≤ ts.month ∧ ts.month ≤ 12 ∧ 1 ≤ ts.day ∧ ts.day ≤ daysIn ts.month ts.year
    ∧ ts.hour ≤ 23 ∧ ts.minute ≤ 59 ∧ ts.second ≤ 60 ∧ (∀ d ∈ ts.frac, d ≤ 9)
    ∧ (match ts.zone with
      | .z _ => True
      | .num _ hh mm => hh ≤ 23 ∧ mm ≤ 59)

/-- The timestamps among the valid ones that are written the way Go writes them: the
separator and the zone letter in upper case, and no leap second. -/
def Timestamp.UpperCase (ts : Timestamp) : Prop :=
  ts.lowerT = false ∧ ts.second ≤ 59
    ∧ (match ts.zone with
      | .z lower => lower = false
      | .num _ _ _ => True)

/-- A valid RFC 3339 timestamp: the text of fields that meet the restrictions. -/
def IsRFC3339 (s : String) : Prop := ∃ ts : Timestamp, ts.Valid ∧ s = ts.text

/-- A valid RFC 3339 timestamp with upper-case `T` and `Z` and without a leap second. -/
def IsUpperRFC3339 (s : String) : Prop :=
  ∃ ts : Timestamp, ts.Valid ∧ ts.UpperCase ∧ s = ts.text

/-- The day of the year of the date a timestamp writes: the days of the months before
its month, and its day. -/
def Timestamp.yearDay (ts : Timestamp) : Nat :=
  ((List.range (ts.month - 1)).map (fun i => daysIn (i + 1) ts.year)).sum + ts.day

/-- The filter in the words of the specification: not completed, a due date present,
and the day of the year of the due date equal to that of From. -/
def eligible (From : Time) (t : Task) : Bool :=
  decide (t.Status ≠ "completed") && decide (t.Due ≠ "") &&
    (match parseRFC3339 t.Due with
      | some due => decide (due.YearDay = From.YearDay)
      | none => false)

/-- The four tasks of the filtering example of the specification, with the due dates in
the form the service sends them. -/
def exampleTasks : List Task :=
  [⟨"t1", "Pay rent", "needsAction", "2022-04-05T00:00:00.000Z"⟩,
   ⟨"t2", "Call home", "completed", "2022-04-05T00:00:00.000Z"⟩,
   ⟨"t3", "Read", "needsAction", ""⟩,
   ⟨"t4", "Shop", "needsAction", "2022-04-06T00:00:00.000Z"⟩]

/-- Five tasks of which the filter selects the first and the last for From = 2022-04-05:
the four of the example and one more due on that day. -/
def dueTasks : List Task :=
  exampleTasks ++ [⟨"t5", "Water plants", "needsAction", "2022-04-05T00:00:00.000Z"⟩]

/-- A service on which the first update call of a run fails and every later one
succeeds. -/
def flakyService : Service :=
  ⟨.ok [⟨"L", "My Tasks"⟩], fun _ => .ok dueTasks,
    fun n _ _ _ => if n = 0 then some "quota exceeded" else none⟩

/-- The request carries a query parameter `key`. -/
def carries (query : List (String × String)) (key : String) : Prop :=
  ∃ v, (key, v) ∈ query

/-! ## The calendar: `absDate` inverts `time.Date` -/

theorem div_eq_of_bounds (x k q : Int) (hk : 0 < k) (h1 : k * q ≤ x) (h2 : x < k * q + k) :
    x / k = q := by
  have h := (Int.ediv_emod_unique (a := x) (q := q) (r := x - k * q) hk).2
    ⟨by omega, by omega, by omega⟩
  exact h.1

/-- Every year is `400 a + 100 b + 4 c + e + 1` with `b ≤ 3`, `c ≤ 24`, `e ≤ 3`. -/
theorem year_digits (Y : Int) : ∃ a b c e : Int, 0 ≤ b ∧ b ≤ 3 ∧ 0 ≤ c ∧ c ≤ 24 ∧ 0 ≤ e ∧ e ≤ 3
    ∧ Y = 400 * a + 100 * b + 4 * c + e + 1 :=
  ⟨(Y - 1) / 400, (Y - 1) % 400 / 100, (Y - 1) % 100 / 4, (Y - 1) % 4,
    by omega, by omega, by omega, by omega, by omega, by omega, by omega⟩

theorem isLeap_digits (a b c e : Int) (hb0 : 0 ≤ b) (hb : b ≤ 3) (hc0 : 0 ≤ c)
    (hc : c ≤ 24) (he0 : 0 ≤ e) (he : e ≤ 3) :
    isLeap (400 * a + 100 * b + 4 * c + e + 1) = true ↔ (e = 3 ∧ (c ≠ 24 ∨ b = 3)) := by
  simp only [isLeap, Bool.and_eq_true, Bool.or_eq_true, beq_iff_eq, bne_iff_ne, ne_eq]
  omega

theorem daysSinceEpoch_digits (a b c e : Int) (hb0 : 0 ≤ b) (hb : b ≤ 3) (hc0 : 0 ≤ c)
    (hc : c ≤ 24) (he0 : 0 ≤ e) (he : e ≤ 3) :
    daysSinceEpoch (400 * a + 100 * b + 4 * c + e + 1)
      = 146097 * a + 36524 * b + 1461 * c + 365 * e := by
  have h1 : (400 * a + 100 * b + 4 * c + e + 1 - 1) / 400 = a := by omega
  have h2 : (400 * a + 100 * b + 4 * c + e + 1 - 1 - 400 * a) / 100 = b := by omega
  have h3 : (400 * a + 100 * b + 4 * c + e + 1 - 1 - 400 * a - 100 * b) / 4 = c := by omega
  simp only [daysSinceEpoch, h1, h2, h3]
  omega

theorem absYearDay_digits (a b c e yd : Int) (hb0 : 0 ≤ b) (hb : b ≤ 3) (hc0 : 0 ≤ c)
    (hc : c ≤ 24) (he0 : 0 ≤ e) (he : e ≤ 3) (h0 : 0 ≤ yd)
    (h1 : yd < 365 ∨ (yd = 365 ∧ e = 3 ∧ (c ≠ 24 ∨ b = 3))) :
    absYearDay (146097 * a + 36524 * b + 1461 * c + 365 * e + yd)
      = (400 * a + 100 * b + 4 * c + e + 1, yd) := by
  have e1 : (146097 * a + 36524 * b + 1461 * c + 365 * e + yd) / 146097 = a :=
    div_eq_of_bounds _ _ _ (by decide) (by omega) (by omega)
  have e2 : (146097 * a + 36524 * b + 1461 * c + 365 * e + yd - 146097 * a) / 36524
      - (146097 * a + 36524 * b + 1461 * c + 365 * e + yd - 146097 * a) / 36524 / 4 = b := by
    by_cases hs : b = 3 ∧ c = 24 ∧ e = 3 ∧ yd = 365
    · obtain ⟨rfl, rfl, rfl, rfl⟩ := hs
      have : (146097 * a + 36524 * 3 + 1461 * 24 + 365 * 3 + 365 - 146097 * a) / 36524 = 4 :=
        div_eq_of_bounds _ _ _ (by decide) (by omega) (by omega)
      rw [this]; decide
    · have : (146097 * a + 36524 * b + 1461 * c + 365 * e + yd - 146097 * a) / 36524 = b :=
        div_eq_of_bounds _ _ _ (by decide) (by omega) (by omega)
      rw [this]
      have : b / 4 = 0 := div_eq_of_bounds _ _ _ (by decide) (by omega) (by omega)
      omega
  have e3 : (146097 * a + 36524 * b + 1461 * c + 365 * e + yd - 146097 * a - 36524 * b) / 1461
      = c := div_eq_of_bounds _ _ _ (by decide) (by omega) (by omega)
  have e4 : (146097 * a + 36524 * b + 1461 * c + 365 * e + yd - 146097 * a - 36524 * b
      - 1461 * c) / 365 - (146097 * a + 36524 * b + 1461 * c + 365 * e + yd - 146097 * a
      - 36524 * b - 1461 * c) / 365 / 4 = e := by
    by_cases hs : yd = 365
    · have he3 : e = 3 := by omega
      subst hs he3
      have : (146097 * a + 36524 * b + 1461 * c + 365 * 3 + 365 - 146097 * a
          - 36524 * b - 1461 * c) / 365 = 4 :=
        div_eq_of_bounds _ _ _ (by decide) (by omega) (by omega)
      rw [this]; decide
    · have : (146097 * a + 36524 * b + 1461 * c + 365 * e + yd - 146097 * a
          - 36524 * b - 1461 * c) / 365 = e :=
        div_eq_of_bounds _ _ _ (by decide) (by omega) (by omega)
      rw [this]
      have : e / 4 = 0 := div_eq_of_bounds _ _ _ (by decide) (by omega) (by omega)
      omega
  simp only [absYearDay, e1, e2, e3, e4, Prod.mk.injEq]
  clear e1 e2 e3 e4 h1
  exact ⟨trivial, by omega⟩

/-- The year part of `absDate` inverts `daysSinceEpoch`: day `yd` of year `Y` is found
again, for every year of the proleptic Gregorian calendar. -/
theorem absYearDay_daysSinceEpoch (Y yd : Int) (h0 : 0 ≤ yd)
    (h1 : yd < if isLeap Y = true then 366 else 365) :
    absYearDay (daysSinceEpoch Y + yd) = (Y, yd) := by
  obtain ⟨a, b, c, e, hb0, hb, hc0, hc, he0, he, rfl⟩ := year_digits Y
  have hl := isLeap_digits a b c e hb0 hb hc0 hc he0 he
  rw [daysSinceEpoch_digits a b c e hb0 hb hc0 hc he0 he]
  apply absYearDay_digits a b c e yd hb0 hb hc0 hc he0 he h0
  by_cases hL : isLeap (400 * a + 100 * b + 4 * c + e + 1) = true
  · rw [if_pos hL] at h1
    have := hl.1 hL
    omega
  · rw [if_neg hL] at h1
    omega

set_option maxRecDepth 100000 in
/-- The month part of `absDate` inverts the day-of-year sum of `time.Date`, by
enumeration of the days of a common and of a leap year. -/
theorem monthDay_table : ∀ b : Bool, ∀ m < 13, ∀ d < 32,
    (1 ≤ m ∧ 1 ≤ d ∧
      d ≤ (if m = 2 ∧ b = true then 29 else daysBefore.getD m 0 - daysBefore.getD (m - 1) 0)) →
    (monthDay b (daysBefore.getD (m - 1) 0 + (if b && decide (m ≥ 3) then 1 else 0) + (d - 1))
        = (m, d)
      ∧ daysBefore.getD (m - 1) 0 + (if b && decide (m ≥ 3) then 1 else 0) + (d - 1)
        < (if b = true then 366 else 365)) := by
  decide

theorem daysIn_le : ∀ b : Bool, ∀ m < 13,
    (if m = 2 ∧ b = true then 29 else daysBefore.getD m 0 - daysBefore.getD (m - 1) 0) ≤ 31 := by
  decide

/-- A moment whose day number is that of a valid date `(Y, m, d)` has that date. -/
theorem absDate_of_day (Y : Int) (m d : Nat) (abs : Int) (hm1 : 1 ≤ m) (hm : m ≤ 12)
    (hd1 : 1 ≤ d) (hd : d ≤ daysIn m Y) (hdiv : abs / 86400 = dayNumber Y m d) :
    absDate abs = (Y, m, d,
      daysBefore.getD (m - 1) 0 + (if isLeap Y && decide (m ≥ 3) then 1 else 0) + (d - 1)) := by
  have hd31 : d < 32 := by
    have := daysIn_le (isLeap Y) m (by omega)
    unfold daysIn at hd
    omega
  obtain ⟨hmd, hyd⟩ := monthDay_table (isLeap Y) m (by omega) d hd31 ⟨hm1, hd1, hd⟩
  unfold dayNumber at hdiv
  generalize daysBefore.getD (m - 1) 0 + (if isLeap Y && decide (m ≥ 3) then 1 else 0)
    + (d - 1) = yd at hmd hyd hdiv
  have hyd2 : ((yd : Nat) : Int) < if isLeap Y = true then 366 else 365 := by
    split at hyd <;> rename_i h <;> simp only [h, if_true, if_false] <;> omega
  have hy := absYearDay_daysSinceEpoch Y yd (by omega) hyd2
  simp only [absDate, hdiv, hy, Int.toNat_ofNat, hmd]

theorem dateSec_div (Y : Int) (m d hh mm ss : Nat) (ht : hh * 3600 + mm * 60 + ss < 86400) :
    dateSec Y m d hh mm ss / 86400 = dayNumber Y m d := by
  have hsec : dateSec Y m d hh mm ss
      = dayNumber Y m d * 86400 + ((hh * 3600 + mm * 60 + ss : Nat) : Int) := by
    unfold dateSec dayNumber
    by_cases hb : (isLeap Y && decide (m ≥ 3)) = true
    · simp only [hb, if_true]; push_cast; ring
    · simp only [hb, if_false]; push_cast; ring
  rw [hsec]
  exact div_eq_of_bounds _ _ _ (by decide) (by omega) (by omega)

/-- For a date `time.Parse` accepts (month 1..12, day within the month) and a time of
day, `absDate` of the seconds `time.Date` computes is that date again. -/
theorem absDate_dateSec (Y : Int) (m d hh mm ss : Nat) (hm1 : 1 ≤ m) (hm : m ≤ 12)
    (hd1 : 1 ≤ d) (hd : d ≤ daysIn m Y) (ht : hh * 3600 + mm * 60 + ss < 86400) :
    absDate (dateSec Y m d hh mm ss) = (Y, m, d,
      daysBefore.getD (m - 1) 0 + (if isLeap Y && decide (m ≥ 3) then 1 else 0) + (d - 1)) :=
  absDate_of_day Y m d _ hm1 hm hd1 hd (dateSec_div Y m d hh mm ss ht)

/-! ### Every day is a date, and the next day is the next date -/

theorem day_digits (n : Int) : ∃ a b c e yd : Int, 0 ≤ b ∧ b ≤ 3 ∧ 0 ≤ c ∧ c ≤ 24 ∧ 0 ≤ e
    ∧ e ≤ 3 ∧ 0 ≤ yd ∧ (yd < 365 ∨ (yd = 365 ∧ e = 3 ∧ (c ≠ 24 ∨ b = 3)))
    ∧ n = 146097 * a + 36524 * b + 1461 * c + 365 * e + yd := by
  obtain ⟨a, r, hr0, hr1, hn⟩ : ∃ a r : Int, 0 ≤ r ∧ r < 146097 ∧ n = 146097 * a + r :=
    ⟨n / 146097, n % 146097, by omega, by omega, by omega⟩
  obtain ⟨b, r2, hb0, hb3, h20, h2a, h2b, hr⟩ : ∃ b r2 : Int, 0 ≤ b ∧ b ≤ 3 ∧ 0 ≤ r2
      ∧ (b < 3 → r2 < 36524) ∧ r2 ≤ 36524 ∧ r = 36524 * b + r2 := by
    by_cases h : r < 3 * 36524
    · exact ⟨r / 36524, r % 36524, by omega, by omega, by omega, by omega, by omega, by omega⟩
    · exact ⟨3, r - 3 * 36524, by omega, by omega, by omega, by omega, by omega, by omega⟩
  obtain ⟨c, r3, hc0, hc24, h30, h31, hr2⟩ : ∃ c r3 : Int, 0 ≤ c ∧ c ≤ 24 ∧ 0 ≤ r3
      ∧ r3 < 1461 ∧ r2 = 1461 * c + r3 :=
    ⟨r2 / 1461, r2 % 1461, by omega, by omega, by omega, by omega, by omega⟩
  obtain ⟨e, yd, he0, he3, hy0, hya, hyb, hr3⟩ : ∃ e yd : Int, 0 ≤ e ∧ e ≤ 3 ∧ 0 ≤ yd
      ∧ (e < 3 → yd < 365) ∧ yd ≤ 365 ∧ r3 = 365 * e + yd := by
    by_cases h : r3 < 3 * 365
    · exact ⟨r3 / 365, r3 % 365, by omega, by omega, by omega, by omega, by omega, by omega⟩
    · exact ⟨3, r3 - 3 * 365, by omega, by omega, by omega, by omega, by omega, by omega⟩
  exact ⟨a, b, c, e, yd, hb0, hb3, hc0, hc24, he0, he3, hy0, by omega, by omega⟩

set_option maxRecDepth 100000 in
/-- Every day of a year is a day of one of its months: `monthDay` gives a month from 1
to 12 and a day within it, and the day-of-year sum of `time.Date` leads back. -/
theorem monthDay_valid : ∀ b : Bool, ∀ yd < 366, yd < (if b = true then 366 else 365) →
    (1 ≤ (monthDay b yd).1 ∧ (monthDay b yd).1 ≤ 12 ∧ 1 ≤ (monthDay b yd).2
      ∧ (monthDay b yd).2 ≤ (if (monthDay b yd).1 = 2 ∧ b = true then 29
          else daysBefore.getD (monthDay b yd).1 0 - daysBefore.getD ((monthDay b yd).1 - 1) 0)
      ∧ daysBefore.getD ((monthDay b yd).1 - 1) 0
          + (if b && decide ((monthDay b yd).1 ≥ 3) then 1 else 0) + ((monthDay b yd).2 - 1)
        = yd) := by
  decide

/-- Every day number is the number of a valid date. -/
theorem exists_date (n : Int) : ∃ (Y : Int) (m d : Nat), 1 ≤ m ∧ m ≤ 12 ∧ 1 ≤ d
    ∧ d ≤ daysIn m Y ∧ n = dayNumber Y m d := by
  obtain ⟨a, b, c, e, yd, hb0, hb3, hc0, hc24, he0, he3, hy0, hyd, hn⟩ := day_digits n
  have hl := isLeap_digits a b c e hb0 hb3 hc0 hc24 he0 he3
  have hD := daysSinceEpoch_digits a b c e hb0 hb3 hc0 hc24 he0 he3
  generalize 400 * a + 100 * b + 4 * c + e + 1 = Y at hl hD
  obtain ⟨k, rfl⟩ : ∃ k : Nat, yd = (k : Int) := ⟨yd.toNat, by omega⟩
  have hk : k < (if isLeap Y = true then 366 else 365) := by
    by_cases hL : isLeap Y = true
    · rw [if_pos hL]; omega
    · rw [if_neg hL]
      have : ¬ (e = 3 ∧ (c ≠ 24 ∨ b = 3)) := fun h => hL (hl.2 h)
      omega
  have hk366 : k < 366 := by split at hk <;> omega
  obtain ⟨h1, h2, h3, h4, h5⟩ := monthDay_valid (isLeap Y) k hk366 hk
  refine ⟨Y, (monthDay (isLeap Y) k).1, (monthDay (isLeap Y) k).2, h1, h2, h3, h4, ?_⟩
  unfold dayNumber
  rw [h5, hD, hn]

theorem daysSinceEpoch_succ (Y : Int) :
    daysSinceEpoch (Y + 1) = daysSinceEpoch Y + (if isLeap Y = true then 366 else 365) := by
  obtain ⟨a, b, c, e, hb0, hb, hc0, hc, he0, he, rfl⟩ := year_digits Y
  have hl := isLeap_digits a b c e hb0 hb hc0 hc he0 he
  rw [daysSinceEpoch_digits a b c e hb0 hb hc0 hc he0 he]
  by_cases h1 : e < 3
  · have hn : ¬ isLeap (400 * a + 100 * b + 4 * c + e + 1) = true := fun h => by
      have := hl.1 h; omega
    rw [if_neg hn]
    have := daysSinceEpoch_digits a b c (e + 1) hb0 hb hc0 hc (by omega) (by omega)
    rw [show 400 * a + 100 * b + 4 * c + e + 1 + 1 = 400 * a + 100 * b + 4 * c + (e + 1) + 1
      by ring, this]
    ring
  have he3 : e = 3 := by omega
  subst he3
  by_cases h2 : c < 24
  · rw [if_pos (hl.2 ⟨rfl, Or.inl (by omega)⟩)]
    have := daysSinceEpoch_digits a b (c + 1) 0 hb0 hb (by omega) (by omega) (by omega) (by omega)
    rw [show 400 * a + 100 * b + 4 * c + 3 + 1 + 1 = 400 * a + 100 * b + 4 * (c + 1) + 0 + 1
      by ring, this]
    ring
  have hc24 : c = 24 := by omega
  subst hc24
  by_cases h3 : b < 3
  · have hn : ¬ isLeap (400 * a + 100 * b + 4 * 24 + 3 + 1) = true := fun h => by
      have := hl.1 h; omega
    rw [if_neg hn]
    have := daysSinceEpoch_digits a (b + 1) 0 0 (by omega) (by omega) (by omega) (by omega)
      (by omega) (by omega)
    rw [show 400 * a + 100 * b + 4 * 24 + 3 + 1 + 1 = 400 * a + 100 * (b + 1) + 4 * 0 + 0 + 1
      by ring, this]
    ring
  have hb3 : b = 3 := by omega
  subst hb3
  rw [if_pos (hl.2 ⟨rfl, Or.inr rfl⟩)]
  have := daysSinceEpoch_digits (a + 1) 0 0 0 (by omega) (by omega) (by omega) (by omega)
    (by omega) (by omega)
  rw [show 400 * a + 100 * 3 + 4 * 24 + 3 + 1 + 1 = 400 * (a + 1) + 100 * 0 + 4 * 0 + 0 + 1
    by ring, this]
  ring

/-- The first day of month `m + 1` follows the last day of month `m`, and the year ends
with December 31. -/
theorem month_succ_table : ∀ b : Bool, ∀ m < 13, 1 ≤ m →
    (1 ≤ (if m = 2 ∧ b = true then 29 else daysBefore.getD m 0 - daysBefore.getD (m - 1) 0))
    ∧ (m < 12 → daysBefore.getD m 0 + (if b && decide (m + 1 ≥ 3) then 1 else 0)
        = daysBefore.getD (m - 1) 0 + (if b && decide (m ≥ 3) then 1 else 0)
          + ((if m = 2 ∧ b = true then 29 else daysBefore.getD m 0 - daysBefore.getD (m - 1) 0)
            - 1) + 1)
    ∧ (m = 12 → daysBefore.getD (m - 1) 0 + (if b && decide (m ≥ 3) then 1 else 0)
          + ((if m = 2 ∧ b = true then 29 else daysBefore.getD m 0 - daysBefore.getD (m - 1) 0)
            - 1) + 1 = (if b = true then 366 else 365)) := by
  decide

/-- The date after a valid date is valid, and its day number is one more. -/
theorem nextDate_dayNumber (Y : Int) (m d : Nat) (hm1 : 1 ≤ m) (hm : m ≤ 12) (hd1 : 1 ≤ d)
    (hd : d ≤ daysIn m Y) :
    1 ≤ (nextDate (Y, m, d)).2.1 ∧ (nextDate (Y, m, d)).2.1 ≤ 12 ∧ 1 ≤ (nextDate (Y, m, d)).2.2
      ∧ (nextDate (Y, m, d)).2.2 ≤ daysIn (nextDate (Y, m, d)).2.1 (nextDate (Y, m, d)).1
      ∧ dayNumber (nextDate (Y, m, d)).1 (nextDate (Y, m, d)).2.1 (nextDate (Y, m, d)).2.2
        = dayNumber Y m d + 1 := by
  obtain ⟨t1, t2, t3⟩ := month_succ_table (isLeap Y) m (by omega) hm1
  unfold nextDate
  by_cases h1 : d < daysIn m Y
  · simp only [h1, if_true]
    refine ⟨hm1, hm, by omega, by omega, ?_⟩
    unfold dayNumber
    push_cast
    omega
  simp only [h1, if_false]
  have hdeq : d = daysIn m Y := by omega
  by_cases h2 : m < 12
  · simp only [h2, if_true]
    obtain ⟨u1, -, -⟩ := month_succ_table (isLeap Y) (m + 1) (by omega) (by omega)
    refine ⟨by omega, by omega, le_refl 1, u1, ?_⟩
    have := t2 h2
    unfold dayNumber
    rw [hdeq]
    unfold daysIn
    simp only [Nat.add_sub_cancel, Nat.sub_self, Nat.add_zero]
    rw [this]
    push_cast
    ring
  · simp only [h2, if_false]
    have hm12 : m = 12 := by omega
    subst hm12
    have hd31 : d = 31 := by
      rw [hdeq]
      simp [daysIn, daysBefore]
    subst hd31
    refine ⟨le_refl 1, by decide, le_refl 1, by simp [daysIn, daysBefore], ?_⟩
    unfold dayNumber
    rw [daysSinceEpoch_succ]
    by_cases hL : isLeap Y = true
    · simp [hL, daysBefore]
      ring
    · simp [hL, daysBefore]
      ring

/-- The calendar date of a time is determined by the number of its day. -/
theorem date_of_localDay (t : Time) (Y : Int) (m d : Nat) (hm1 : 1 ≤ m) (hm : m ≤ 12)
    (hd1 : 1 ≤ d) (hd : d ≤ daysIn m Y) (h : t.localDay = dayNumber Y m d) :
    t.Date = (Y, m, d) := by
  have := absDate_of_day Y m d t.abs hm1 hm hd1 hd h
  simp only [Time.Date, this]

/-- A time on the day after the day of `t` has the calendar date after that of `t`. -/
theorem date_succ (t u : Time) (h : u.localDay = t.localDay + 1) : u.Date = nextDate t.Date := by
  obtain ⟨Y, m, d, hm1, hm, hd1, hd, hn⟩ := exists_date t.localDay
  obtain ⟨n1, n2, n3, n4, n5⟩ := nextDate_dayNumber Y m d hm1 hm hd1 hd
  rw [date_of_localDay t Y m d hm1 hm hd1 hd hn]
  have hu : u.localDay = dayNumber (nextDate (Y, m, d)).1 (nextDate (Y, m, d)).2.1
      (nextDate (Y, m, d)).2.2 := by rw [n5, h, hn]
  exact date_of_localDay u _ _ _ n1 n2 n3 n4 hu

/-! ## Parsing `YYYY-MM-DD` -/

theorem digitChar_spec : ∀ n < 10, isDigit (digitChar n) = true ∧ digitVal (digitChar n) = n := by
  decide

theorem isDigit_spec (c : Char) (h : isDigit c = true) :
    digitVal c < 10 ∧ digitChar (digitVal c) = c := by
  simp only [isDigit, Bool.and_eq_true, decide_eq_true_eq] at h
  obtain ⟨h1, h2⟩ := h
  have h1n : 48 ≤ c.toNat := h1
  have h2n : c.toNat ≤ 57 := h2
  refine ⟨by unfold digitVal; omega, ?_⟩
  unfold digitChar digitVal
  rw [Nat.sub_add_cancel h1n, Char.ofNat_toNat]

theorem skip_eq_some (lit : Char) (l r : List Char) : skip lit l = some r ↔ l = lit :: r := by
  cases l with
  | nil => simp [skip]
  | cons c rest =>
    simp only [skip]
    split <;> simp_all

theorem getnum_fixed_eq_some (l r : List Char) (n : Nat) :
    getnum true l = some (n, r) ↔
      ∃ a b, l = a :: b :: r ∧ isDigit a = true ∧ isDigit b = true
        ∧ n = digitVal a * 10 + digitVal b := by
  rcases l with _ | ⟨a, _ | ⟨b, rest⟩⟩
  · simp [getnum]
  · simp [getnum]
  · simp only [getnum]
    constructor
    · intro h
      by_cases ha : isDigit a = true <;> by_cases hb : isDigit b = true <;>
        simp [ha, hb] at h
      exact ⟨a, b, by rw [h.2], ha, hb, h.1.symm⟩
    · rintro ⟨a', b', hl, ha, hb, hn⟩
      simp only [List.cons.injEq] at hl
      obtain ⟨rfl, rfl, rfl⟩ := hl
      simp [ha, hb, hn]

theorem parseLongYear_eq_some (l r : List Char) (y : Int) :
    parseLongYear l = some (y, r) ↔
      ∃ a b c d, l = a :: b :: c :: d :: r ∧ isDigit a = true ∧ isDigit b = true
        ∧ isDigit c = true ∧ isDigit d = true
        ∧ y = ((digitVal a * 1000 + digitVal b * 100 + digitVal c * 10 + digitVal d : Nat) : Int) := by
  rcases l with _ | ⟨a, _ | ⟨b, _ | ⟨c, _ | ⟨d, rest⟩⟩⟩⟩
  · simp [parseLongYear]
  · simp [parseLongYear]
  · simp [parseLongYear]
  · simp [parseLongYear]
  · simp only [parseLongYear]
    by_cases h : (isDigit a && isDigit b && isDigit c && isDigit d) = true
    · simp only [h, if_true]
      simp only [Bool.and_eq_true] at h
      obtain ⟨⟨⟨ha, hb⟩, hc⟩, hd⟩ := h
      constructor
      · intro he
        simp only [Option.some.injEq, Prod.mk.injEq] at he
        exact ⟨a, b, c, d, by rw [he.2], ha, hb, hc, hd, he.1.symm⟩
      · rintro ⟨a', b', c', d', hl, -, -, -, -, hy⟩
        simp only [List.cons.injEq] at hl
        obtain ⟨rfl, rfl, rfl, rfl, rfl⟩ := hl
        rw [hy]
    · simp only [h]
      simp only [Bool.and_eq_true, not_and] at h
      constructor
      · intro he; simp at he
      · rintro ⟨a', b', c', d', hl, ha, hb, hc, hd, -⟩
        simp only [List.cons.injEq] at hl
        obtain ⟨rfl, rfl, rfl, rfl, rfl⟩ := hl
        exact absurd hd (h ⟨⟨ha, hb⟩, hc⟩)

/-- What `parseYMD` accepts: four digits, a hyphen, two digits with a value from 1 to
12, a hyphen and two digits; it returns the three numbers and the rest of the input. -/
theorem parseYMD_eq_some (l r : List Char) (y : Int) (m d : Nat) :
    parseYMD l = some (y, m, d, r) ↔
      ∃ a b c e f g h k, l = a :: b :: c :: e :: '-' :: f :: g :: '-' :: h :: k :: r
        ∧ isDigit a = true ∧ isDigit b = true ∧ isDigit c = true ∧ isDigit e = true
        ∧ isDigit f = true ∧ isDigit g = true ∧ isDigit h = true ∧ isDigit k = true
        ∧ y = ((digitVal a * 1000 + digitVal b * 100 + digitVal c * 10 + digitVal e : Nat) : Int)
        ∧ m = digitVal f * 10 + digitVal g ∧ 1 ≤ m ∧ m ≤ 12
        ∧ d = digitVal h * 10 + digitVal k := by
  constructor
  · intro hp
    unfold parseYMD at hp
    split at hp
    · exact absurd hp (by simp)
    rename_i year v1 hY
    split at hp
    · exact absurd hp (by simp)
    rename_i v2 hs1
    split at hp
    · exact absurd hp (by simp)
    rename_i month v3 hM
    split at hp
    · exact absurd hp (by simp)
    rename_i hrange
    split at hp
    · exact absurd hp (by simp)
    rename_i v4 hs2
    split at hp
    · exact absurd hp (by simp)
    rename_i day v5 hD
    simp only [Option.some.injEq, Prod.mk.injEq] at hp
    obtain ⟨rfl, rfl, rfl, rfl⟩ := hp
    obtain ⟨a, b, c, e, rfl, ha, hb, hc, he, hy⟩ := (parseLongYear_eq_some _ _ _).1 hY
    rw [skip_eq_some] at hs1 hs2
    subst hs1
    obtain ⟨f, g, hl, hf, hg, hm⟩ := (getnum_fixed_eq_some _ _ _).1 hM
    subst hl hs2
    obtain ⟨h, k, hl, hh, hk, hd⟩ := (getnum_fixed_eq_some _ _ _).1 hD
    subst hl
    exact ⟨a, b, c, e, f, g, h, k, rfl, ha, hb, hc, he, hf, hg, hh, hk, hy, hm,
      by omega, by omega, hd⟩
  · rintro ⟨a, b, c, e, f, g, h, k, rfl, ha, hb, hc, he, hf, hg, hh, hk, hy, hm, hm1, hm12, hd⟩
    have h1 : parseLongYear (a :: b :: c :: e :: '-' :: f :: g :: '-' :: h :: k :: r)
        = some (y, '-' :: f :: g :: '-' :: h :: k :: r) :=
      (parseLongYear_eq_some _ _ _).2 ⟨a, b, c, e, rfl, ha, hb, hc, he, hy⟩
    have h2 : skip '-' ('-' :: f :: g :: '-' :: h :: k :: r) = some (f :: g :: '-' :: h :: k :: r) :=
      (skip_eq_some _ _ _).2 rfl
    have h3 : getnum true (f :: g :: '-' :: h :: k :: r) = some (m, '-' :: h :: k :: r) :=
      (getnum_fixed_eq_some _ _ _).2 ⟨f, g, rfl, hf, hg, hm⟩
    have h4 : skip '-' ('-' :: h :: k :: r) = some (h :: k :: r) := (skip_eq_some _ _ _).2 rfl
    have h5 : getnum true (h :: k :: r) = some (d, r) :=
      (getnum_fixed_eq_some _ _ _).2 ⟨h, k, rfl, hh, hk, hd⟩
    have h6 : ¬ (m = 0 ∨ 12 < m) := by omega
    simp only [parseYMD, h1, h2, h3, h4, h5, h6, if_false]

theorem isoDate_data (y m d : Nat) (hy : y ≤ 9999) (hm : m ≤ 12) (hd : d ≤ 31) :
    ∃ a b c e f g h k, (isoDate y m d).data = [a, b, c, e, '-', f, g, '-', h, k]
        ∧ isDigit a = true ∧ isDigit b = true ∧ isDigit c = true ∧ isDigit e = true
        ∧ isDigit f = true ∧ isDigit g = true ∧ isDigit h = true ∧ isDigit k = true
        ∧ (y : Int) = ((digitVal a * 1000 + digitVal b * 100 + digitVal c * 10 + digitVal e : Nat)
            : Int)
        ∧ m = digitVal f * 10 + digitVal g ∧ d = digitVal h * 10 + digitVal k := by
  have d1 := digitChar_spec (y / 1000 % 10) (by omega)
  have d2 := digitChar_spec (y / 100 % 10) (by omega)
  have d3 := digitChar_spec (y / 10 % 10) (by omega)
  have d4 := digitChar_spec (y % 10) (by omega)
  have d5 := digitChar_spec (m / 10 % 10) (by omega)
  have d6 := digitChar_spec (m % 10) (by omega)
  have d7 := digitChar_spec (d / 10 % 10) (by omega)
  have d8 := digitChar_spec (d % 10) (by omega)
  refine ⟨_, _, _, _, _, _, _, _, rfl, d1.1, d2.1, d3.1, d4.1, d5.1, d6.1, d7.1, d8.1, ?_, ?_, ?_⟩
  · rw [d1.2, d2.2, d3.2, d4.2]; norm_cast; omega
  · rw [d5.2, d6.2]; omega
  · rw [d7.2, d8.2]; omega

/-- The layout `2006-01-02` accepts exactly the valid `YYYY-MM-DD` dates, and gives
midnight UTC of the date written. -/
theorem parseDate_eq_some (s : String) (t : Time) :
    parseDate s = some t ↔
      ∃ y m d : Nat, y ≤ 9999 ∧ 1 ≤ m ∧ m ≤ 12 ∧ 1 ≤ d ∧ d ≤ daysIn m y ∧ s = isoDate y m d
        ∧ t = ⟨dateSec y m d 0 0 0, UTC⟩ := by
  constructor
  · intro hp
    unfold parseDate at hp
    split at hp
    · exact absurd hp (by simp)
    rename_i year month day v hY
    split at hp
    · exact absurd hp (by simp)
    rename_i hv
    split at hp
    · exact absurd hp (by simp)
    rename_i hday
    simp only [ne_eq, not_not] at hv
    subst hv
    obtain ⟨a, b, c, e, f, g, h, k, hl, ha, hb, hc, he, hf, hg, hh, hk, hy, hm, hm1, hm12, hd⟩ :=
      (parseYMD_eq_some _ _ _ _ _).1 hY
    have va := isDigit_spec a ha
    have vb := isDigit_spec b hb
    have vc := isDigit_spec c hc
    have ve := isDigit_spec e he
    have vf := isDigit_spec f hf
    have vg := isDigit_spec g hg
    have vh := isDigit_spec h hh
    have vk := isDigit_spec k hk
    simp only [Option.some.injEq] at hp
    refine ⟨digitVal a * 1000 + digitVal b * 100 + digitVal c * 10 + digitVal e, month, day,
      by omega, hm1, hm12, by omega, ?_, ?_, ?_⟩
    · rw [← hy]; omega
    · apply String.ext
      rw [hl]
      simp only [isoDate]
      have e1 : (digitVal a * 1000 + digitVal b * 100 + digitVal c * 10 + digitVal e) / 1000 % 10
          = digitVal a := by omega
      have e2 : (digitVal a * 1000 + digitVal b * 100 + digitVal c * 10 + digitVal e) / 100 % 10
          = digitVal b := by omega
      have e3 : (digitVal a * 1000 + digitVal b * 100 + digitVal c * 10 + digitVal e) / 10 % 10
          = digitVal c := by omega
      have e4 : (digitVal a * 1000 + digitVal b * 100 + digitVal c * 10 + digitVal e) % 10
          = digitVal e := by omega
      have e5 : month / 10 % 10 = digitVal f := by omega
      have e6 : month % 10 = digitVal g := by omega
      have e7 : day / 10 % 10 = digitVal h := by omega
      have e8 : day % 10 = digitVal k := by omega
      rw [e1, e2, e3, e4, e5, e6, e7, e8, va.2, vb.2, vc.2, ve.2, vf.2, vg.2, vh.2, vk.2]
    · rw [← hp, ← hy]
  · rintro ⟨y, m, d, hy, hm1, hm12, hd1, hd, rfl, rfl⟩
    have hd31 : d ≤ 31 := by
      have := daysIn_le (isLeap y) m (by omega)
      unfold daysIn at hd
      omega
    obtain ⟨a, b, c, e, f, g, h, k, hl, ha, hb, hc, he, hf, hg, hh, hk, hyv, hmv, hdv⟩ :=
      isoDate_data y m d hy hm12 hd31
    have hP : parseYMD (isoDate y m d).data = some ((y : Int), m, d, []) :=
      (parseYMD_eq_some _ _ _ _ _).2
        ⟨a, b, c, e, f, g, h, k, hl, ha, hb, hc, he, hf, hg, hh, hk, hyv, hmv, hm1, hm12, hdv⟩
    have h2 : ¬ (d < 1 ∨ d > daysIn m y) := by omega
    simp only [parseDate, hP, ne_eq, not_true_eq_false, if_false, h2]

/-- The wall clock of a time in UTC is its instant. -/
theorem abs_utc (sec : Int) : (⟨sec, UTC⟩ : Time).abs = sec := by
  simp [Time.abs, Time.offset, Location.lookup, UTC]

/-- The wall clock of a time in a fixed zone is its instant moved by the offset. -/
theorem abs_fixedZone (sec off : Int) : (⟨sec, FixedZone off⟩ : Time).abs = sec + off := by
  simp [Time.abs, Time.offset, Location.lookup, FixedZone]

/-- The calendar date of a parsed `YYYY-MM-DD` text is the date written. -/
theorem parseDate_isoDate (y m d : Nat) (hy : y ≤ 9999) (hm1 : 1 ≤ m) (hm12 : m ≤ 12)
    (hd1 : 1 ≤ d) (hd : d ≤ daysIn m y) :
    ∃ t, parseDate (isoDate y m d) = some t ∧ t.Date = ((y : Int), m, d)
      ∧ t.Clock = (0, 0, 0) ∧ t.loc = UTC := by
  refine ⟨⟨dateSec y m d 0 0 0, UTC⟩,
    (parseDate_eq_some _ _).2 ⟨y, m, d, hy, hm1, hm12, hd1, hd, rfl, rfl⟩, ?_, ?_, rfl⟩
  · have h := absDate_dateSec y m d 0 0 0 hm1 hm12 hd1 hd (by decide)
    simp only [Time.Date, abs_utc, h]
  · have hs : dateSec y m d 0 0 0 % 86400 = 0 := by
      unfold dateSec
      simp only [Nat.zero_mul, Nat.add_zero, Nat.cast_zero, add_zero]
      exact Int.mul_emod_left _ _
    simp only [Time.Clock, abs_utc, hs]
    decide

/-! ## The date resolver -/

theorem isISODate_iff (s : String) : IsISODate s ↔ ∃ t, parseDate s = some t := by
  constructor
  · rintro ⟨y, m, d, hy, hm1, hm12, hd1, hd, hs⟩
    exact ⟨_, (parseDate_eq_some s _).2 ⟨y, m, d, hy, hm1, hm12, hd1, hd, hs, rfl⟩⟩
  · rintro ⟨t, ht⟩
    obtain ⟨y, m, d, hy, hm1, hm12, hd1, hd, hs, -⟩ := (parseDate_eq_some s t).1 ht
    exact ⟨y, m, d, hy, hm1, hm12, hd1, hd, hs⟩

/-- One `switch` of `parseTimeTargets`: the time an input resolves to, if any. -/
theorem resolve_isSome (now : Time) (s : String) :
    (∃ t, (if s = "tomorrow" then some (now.Add (24 * Hour))
      else if s = "yesterday" then some (now.Add (-24 * Hour))
      else if s = "today" then some now
      else parseDate s) = some t) ↔ IsValidInput s := by
  unfold IsValidInput IsSymbolic
  rw [isISODate_iff]
  by_cases h1 : s = "tomorrow"
  · simp [h1]
  by_cases h2 : s = "yesterday"
  · simp [h2]
  by_cases h3 : s = "today"
  · simp [h3]
  simp [h1, h2, h3]

/-- C6. `parseTimeTargets` fails if and only if at least one input is neither exactly
"today", "tomorrow" or "yesterday" nor a valid `YYYY-MM-DD` date; the message names "to"
when `userTo` is invalid and "from" when only `userFrom` is; two valid inputs always
succeed, whatever their order in time; "Today" is not a valid input, and a To that
precedes From is accepted. -/
theorem parseTimeTargets_fails_iff (nowTo nowFrom : Time) (userTo userFrom : String) :
    ((∃ msg, parseTimeTargets nowTo nowFrom userTo userFrom = .error msg)
        ↔ (¬ IsValidInput userTo ∨ ¬ IsValidInput userFrom))
    ∧ (¬ IsValidInput userTo → parseTimeTargets nowTo nowFrom userTo userFrom
        = .error "unable to parse the value of \"to\"")
    ∧ (IsValidInput userTo → ¬ IsValidInput userFrom →
        parseTimeTargets nowTo nowFrom userTo userFrom
          = .error "unable to parse the value of \"from\"")
    ∧ (IsValidInput userTo → IsValidInput userFrom →
        ∃ tt, parseTimeTargets nowTo nowFrom userTo userFrom = .ok tt)
    ∧ ¬ IsValidInput "Today"
    ∧ (∃ tt, parseTimeTargets nowTo nowFrom "2022-04-04" "2022-04-05" = .ok tt
        ∧ tt.To.sec < tt.From.sec) := by
  have hTo := resolve_isSome nowTo userTo
  have hFrom := resolve_isSome nowFrom userFrom
  have key : (¬ IsValidInput userTo → parseTimeTargets nowTo nowFrom userTo userFrom
        = .error "unable to parse the value of \"to\"")
      ∧ (IsValidInput userTo → ¬ IsValidInput userFrom →
        parseTimeTargets nowTo nowFrom userTo userFrom
          = .error "unable to parse the value of \"from\"")
      ∧ (IsValidInput userTo → IsValidInput userFrom →
        ∃ tt, parseTimeTargets nowTo nowFrom userTo userFrom = .ok tt) := by
    unfold parseTimeTargets
    generalize (if userTo = "tomorrow" then some (nowTo.Add (24 * Hour))
      else if userTo = "yesterday" then some (nowTo.Add (-24 * Hour))
      else if userTo = "today" then some nowTo
      else parseDate userTo) = rTo at hTo
    generalize (if userFrom = "tomorrow" then some (nowFrom.Add (24 * Hour))
      else if userFrom = "yesterday" then some (nowFrom.Add (-24 * Hour))
      else if userFrom = "today" then some nowFrom
      else parseDate userFrom) = rFrom at hFrom
    cases rTo with
    | none =>
      have hn : ¬ IsValidInput userTo := fun h => by simpa using hTo.2 h
      exact ⟨fun _ => rfl, fun h => absurd h hn, fun h => absurd h hn⟩
    | some a =>
      have hv : IsValidInput userTo := hTo.1 ⟨a, rfl⟩
      cases rFrom with
      | none =>
        have hn : ¬ IsValidInput userFrom := fun h => by simpa using hFrom.2 h
        exact ⟨fun h => absurd hv h, fun _ _ => rfl, fun _ h => absurd h hn⟩
      | some b =>
        have hw : IsValidInput userFrom := hFrom.1 ⟨b, rfl⟩
        exact ⟨fun h => absurd hv h, fun _ h => absurd hw h, fun _ _ => ⟨_, rfl⟩⟩
  obtain ⟨k1, k2, k3⟩ := key
  refine ⟨⟨?_, ?_⟩, k1, k2, k3, ?_, ?_⟩
  · rintro ⟨msg, hmsg⟩
    by_contra hc
    push_neg at hc
    obtain ⟨tt, htt⟩ := k3 hc.1 hc.2
    rw [htt] at hmsg
    exact absurd hmsg (by simp)
  · intro h
    by_cases hv : IsValidInput userTo
    · rcases h with h | h
      · exact absurd hv h
      · exact ⟨_, k2 hv h⟩
    · exact ⟨_, k1 hv⟩
  · intro h
    rcases h with h | h
    · rcases h with h | h | h <;> exact absurd h (by decide)
    · obtain ⟨t, ht⟩ := (isISODate_iff _).1 h
      have hn : parseDate "Today" = none := by decide
      rw [hn] at ht
      exact absurd ht (by simp)
  · have h1 : parseDate "2022-04-04" = some ⟨dateSec 2022 4 4 0 0 0, UTC⟩ := by decide
    have h2 : parseDate "2022-04-05" = some ⟨dateSec 2022 4 5 0 0 0, UTC⟩ := by decide
    refine ⟨⟨⟨dateSec 2022 4 4 0 0 0, UTC⟩, ⟨dateSec 2022 4 5 0 0 0, UTC⟩⟩, ?_, by decide⟩
    unfold parseTimeTargets
    rw [if_neg (by decide), if_neg (by decide), if_neg (by decide), h1,
      if_neg (by decide), if_neg (by decide), if_neg (by decide), h2]

/-- C6, on the inputs "Today" and "today": the capitalised word is not a valid input,
and the error names "to". -/
theorem parseTimeTargets_fails_iff_witness :
    ¬ IsValidInput "Today"
    ∧ parseTimeTargets zeroTime zeroTime "Today" "today"
        = .error "unable to parse the value of \"to\"" :=
  ⟨(parseTimeTargets_fails_iff zeroTime zeroTime "Today" "today").2.2.2.2.1,
    (parseTimeTargets_fails_iff zeroTime zeroTime "Today" "today").2.1
      (parseTimeTargets_fails_iff zeroTime zeroTime "Today" "today").2.2.2.2.1⟩

theorem add_day (t : Time) : t.Add (24 * Hour) = ⟨t.sec + 86400, t.loc⟩ := by
  have h : Int.tdiv (24 * Hour) 1000000000 = 86400 := by decide
  simp only [Time.Add, h]

theorem sub_day (t : Time) : t.Add (-24 * Hour) = ⟨t.sec - 86400, t.loc⟩ := by
  have h : Int.tdiv (-24 * Hour) 1000000000 = -86400 := by decide
  simp only [Time.Add, h]
  rfl

/-- Where the zone has the same offset 24 hours later, adding 24 hours moves a time to
the same time of day on the next calendar day. -/
theorem add_day_spec (t : Time) (hs : t.loc.lookup (t.sec + 86400) = t.loc.lookup t.sec) :
    (t.Add (24 * Hour)).localDay = t.localDay + 1 ∧ (t.Add (24 * Hour)).Date = nextDate t.Date
      ∧ (t.Add (24 * Hour)).Clock = t.Clock ∧ (t.Add (24 * Hour)).offset = t.offset := by
  have hd : (t.Add (24 * Hour)).localDay = t.localDay + 1 := by
    rw [add_day]
    simp only [Time.localDay, Time.abs, Time.offset, hs]
    omega
  refine ⟨hd, date_succ _ _ hd, ?_, by rw [add_day]; exact hs⟩
  rw [add_day]
  have : (t.sec + 86400 + t.loc.lookup t.sec) % 86400 = (t.sec + t.loc.lookup t.sec) % 86400 := by
    omega
  simp only [Time.Clock, Time.abs, Time.offset, hs, this]

/-- Where the zone had the same offset 24 hours earlier, subtracting 24 hours moves a
time to the same time of day on the previous calendar day. -/
theorem sub_day_spec (t : Time) (hs : t.loc.lookup (t.sec - 86400) = t.loc.lookup t.sec) :
    (t.Add (-24 * Hour)).localDay = t.localDay - 1
      ∧ nextDate (t.Add (-24 * Hour)).Date = t.Date
      ∧ (t.Add (-24 * Hour)).Clock = t.Clock ∧ (t.Add (-24 * Hour)).offset = t.offset := by
  have hd : (t.Add (-24 * Hour)).localDay = t.localDay - 1 := by
    rw [sub_day]
    simp only [Time.localDay, Time.abs, Time.offset, hs]
    omega
  refine ⟨hd, (date_succ _ _ (by omega)).symm, ?_, by rw [sub_day]; exact hs⟩
  rw [sub_day]
  have : (t.sec - 86400 + t.loc.lookup t.sec) % 86400 = (t.sec + t.loc.lookup t.sec) % 86400 := by
    omega
  simp only [Time.Clock, Time.abs, Time.offset, hs, this]

theorem isoDate_length (y m d : Nat) : (isoDate y m d).length = 10 := rfl

theorem resolve_spec (now : Time) (s : String) (t : Time)
    (hnext : s = "tomorrow" → now.loc.lookup (now.sec + 86400) = now.loc.lookup now.sec)
    (hprev : s = "yesterday" → now.loc.lookup (now.sec - 86400) = now.loc.lookup now.sec)
    (h : (if s = "tomorrow" then some (now.Add (24 * Hour))
      else if s = "yesterday" then some (now.Add (-24 * Hour))
      else if s = "today" then some now
      else parseDate s) = some t) : Resolves now s t := by
  have hiso : ∀ y m d : Nat, s = isoDate y m d → s.length = 10 := fun y m d e => by
    rw [e, isoDate_length]
  by_cases h1 : s = "tomorrow"
  · have hs := hnext h1
    subst h1
    simp only [if_true, Option.some.injEq] at h
    subst h
    exact ⟨fun e => absurd e (by decide), fun _ => add_day_spec now hs,
      fun e => absurd e (by decide),
      fun y m d _ _ _ _ _ e => absurd (hiso y m d e) (by decide)⟩
  by_cases h2 : s = "yesterday"
  · have hs := hprev h2
    subst h2
    rw [if_neg (by decide), if_pos rfl] at h
    simp only [Option.some.injEq] at h
    subst h
    exact ⟨fun e => absurd e (by decide), fun e => absurd e (by decide),
      fun _ => sub_day_spec now hs,
      fun y m d _ _ _ _ _ e => absurd (hiso y m d e) (by decide)⟩
  by_cases h3 : s = "today"
  · subst h3
    rw [if_neg (by decide), if_neg (by decide), if_pos rfl] at h
    simp only [Option.some.injEq] at h
    subst h
    exact ⟨fun _ => rfl, fun e => absurd e (by decide), fun e => absurd e (by decide),
      fun y m d _ _ _ _ _ e => absurd (hiso y m d e) (by decide)⟩
  rw [if_neg h1, if_neg h2, if_neg h3] at h
  refine ⟨fun e => absurd e h3, fun e => absurd e h1, fun e => absurd e h2, ?_⟩
  intro y m d hy hm1 hm12 hd1 hd e
  obtain ⟨u, hu, hdate, -, -⟩ := parseDate_isoDate y m d hy hm1 hm12 hd1 hd
  rw [e, hu] at h
  simp only [Option.some.injEq] at h
  rw [← h, hdate]

/-- Where the zone of the clock keeps its offset over the 24 hours that "tomorrow" adds
and "yesterday" subtracts, `parseTimeTargets` meets the contract `Resolves` for each of
the two inputs: the next or previous calendar date at the same time of day, and for a
`YYYY-MM-DD` text exactly that date. -/
theorem parseTimeTargets_resolves_of_stable (nowTo nowFrom : Time) (userTo userFrom : String)
    (hTo : IsValidInput userTo) (hFrom : IsValidInput userFrom)
    (h1 : userTo = "tomorrow" →
      nowTo.loc.lookup (nowTo.sec + 86400) = nowTo.loc.lookup nowTo.sec)
    (h2 : userTo = "yesterday" →
      nowTo.loc.lookup (nowTo.sec - 86400) = nowTo.loc.lookup nowTo.sec)
    (h3 : userFrom = "tomorrow" →
      nowFrom.loc.lookup (nowFrom.sec + 86400) = nowFrom.loc.lookup nowFrom.sec)
    (h4 : userFrom = "yesterday" →
      nowFrom.loc.lookup (nowFrom.sec - 86400) = nowFrom.loc.lookup nowFrom.sec) :
    ∃ tt, parseTimeTargets nowTo nowFrom userTo userFrom = .ok tt
      ∧ Resolves nowTo userTo tt.To ∧ Resolves nowFrom userFrom tt.From := by
  obtain ⟨a, ha⟩ := (resolve_isSome nowTo userTo).2 hTo
  obtain ⟨b, hb⟩ := (resolve_isSome nowFrom userFrom).2 hFrom
  refine ⟨⟨a, b⟩, ?_, resolve_spec nowTo userTo a h1 h2 ha,
    resolve_spec nowFrom userFrom b h3 h4 hb⟩
  simp only [parseTimeTargets, ha, hb]

/-- C7 (code defect). "tomorrow" is the clock plus 24 hours, which is not always the
next calendar date. In a zone on UTC-4 whose clocks go back one hour on 2026-11-01 at
06:00 UTC, with the clock at 00:20 of that day, `--to tomorrow --from today` resolves To
to 23:20 of the same day: To and From are both 2026-11-01, and the date after From,
2026-11-02, is not reached. -/
theorem parseTimeTargets_tomorrow_same_day :
    parseTimeTargets ⟨63929103600, fallBackZone⟩ ⟨63929103600, fallBackZone⟩ "tomorrow" "today"
      = .ok ⟨⟨63929190000, fallBackZone⟩, ⟨63929103600, fallBackZone⟩⟩
    ∧ (⟨63929103600, fallBackZone⟩ : Time).FormatRFC3339 = "2026-11-01T00:20:00-04:00"
    ∧ (⟨63929190000, fallBackZone⟩ : Time).FormatRFC3339 = "2026-11-01T23:20:00-05:00"
    ∧ (⟨63929103600, fallBackZone⟩ : Time).Date = (2026, 11, 1)
    ∧ (⟨63929190000, fallBackZone⟩ : Time).Date = (2026, 11, 1)
    ∧ nextDate (⟨63929103600, fallBackZone⟩ : Time).Date = (2026, 11, 2)
    ∧ ¬ Resolves ⟨63929103600, fallBackZone⟩ "tomorrow" ⟨63929190000, fallBackZone⟩ := by
  refine ⟨?_, by decide, by decide, by decide, by decide, by decide, ?_⟩
  · unfold parseTimeTargets
    rw [if_pos rfl, if_neg (by decide), if_neg (by decide), if_pos rfl, add_day]
    rfl
  · intro h
    exact absurd (h.2.1 rfl).2.1 (by decide)

/-! ## Parsing RFC 3339 timestamps -/

theorem getnum_twoDigits (fixed : Bool) (n : Nat) (rest : List Char) (hn : n ≤ 99) :
    getnum fixed (twoDigits n ++ rest) = some (n, rest) := by
  have d1 := digitChar_spec (n / 10 % 10) (by omega)
  have d2 := digitChar_spec (n % 10) (by omega)
  simp only [twoDigits, List.cons_append, List.nil_append, getnum, d1.1, d2.1, d1.2, d2.2,
    Bool.not_true, Bool.false_eq_true, if_false]
  congr 2
  omega

theorem dropWhile_digits (ds : List Nat) (rest : List Char) (hds : ∀ d ∈ ds, d ≤ 9)
    (hrest : ∀ c r, rest = c :: r → isDigit c = false) :
    (ds.map digitChar ++ rest).dropWhile isDigit = rest := by
  induction ds with
  | nil =>
    cases rest with
    | nil => rfl
    | cons c r => simp [List.dropWhile, hrest c r rfl]
  | cons d ds ih =>
    have hd := digitChar_spec d (by have := hds d (List.mem_cons_self _ _); omega)
    simp only [List.map_cons, List.cons_append, List.dropWhile, hd.1]
    exact ih (fun x hx => hds x (List.mem_cons_of_mem _ hx))

theorem zone_head (z : ZoneText) : ∀ c r, z.text = c :: r →
    isDigit c = false ∧ c ≠ '.' ∧ c ≠ ',' := by
  intro c r h
  cases z with
  | z lower =>
    cases lower <;> simp only [ZoneText.text, List.cons.injEq] at h <;>
      (obtain ⟨rfl, -⟩ := h; decide)
  | num neg hh mm =>
    cases neg <;> simp only [ZoneText.text, List.cons.injEq] at h <;>
      (obtain ⟨rfl, -⟩ := h; decide)

theorem skipFraction_text (ds : List Nat) (z : ZoneText) (hds : ∀ d ∈ ds, d ≤ 9) :
    skipFraction ((if ds = [] then [] else '.' :: ds.map digitChar) ++ z.text) = z.text := by
  cases ds with
  | nil =>
    simp only [if_true, List.nil_append]
    rcases hz : z.text with _ | ⟨c, _ | ⟨d, r⟩⟩
    · rfl
    · rfl
    · have := zone_head z c (d :: r) hz
      simp [skipFraction, this.2.1, this.2.2]
  | cons d ds =>
    have hd := digitChar_spec d (by have := hds d (List.mem_cons_self _ _); omega)
    simp only [reduceCtorEq, if_false, List.map_cons, List.cons_append, skipFraction, hd.1,
      true_or, and_self, if_true]
    exact dropWhile_digits ds z.text (fun x hx => hds x (List.mem_cons_of_mem _ hx))
      (fun c r h => (zone_head z c r h).1)

theorem parseZone_text (z : ZoneText)
    (hz : match z with
      | .z lower => lower = false
      | .num _ hh mm => hh ≤ 23 ∧ mm ≤ 59) :
    parseZone z.text = some (z.seconds, []) := by
  cases z with
  | z lower =>
    simp only at hz
    subst hz
    rfl
  | num neg hh mm =>
    simp only at hz
    have g1 := getnum_twoDigits true hh [] (by omega)
    have g2 := getnum_twoDigits true mm [] (by omega)
    simp only [List.append_nil] at g1 g2
    have hr : ¬ (hh > 24 ∨ mm > 60) := by omega
    cases neg
    · simp only [ZoneText.text, twoDigits, List.cons_append, List.nil_append, Bool.false_eq_true,
        if_false]
      simp only [twoDigits] at g1 g2
      have hne : ¬ ('+' = 'Z') := by decide
      simp only [parseZone, hne, ne_eq, not_true_eq_false, if_false, g1, g2, hr, if_true,
        ZoneText.seconds]
    · simp only [ZoneText.text, twoDigits, List.cons_append, List.nil_append, if_true]
      simp only [twoDigits] at g1 g2
      have hne : ¬ ('-' = '+') := by decide
      have hne2 : ¬ ('-' = 'Z') := by decide
      simp only [parseZone, hne, hne2, ne_eq, not_true_eq_false, if_false, g1, g2, hr, if_true,
        ZoneText.seconds]

theorem parseClock_text (hh mi ss : Nat) (rest : List Char) (h1 : hh ≤ 23) (h2 : mi ≤ 59)
    (h3 : ss ≤ 59) :
    parseClock ('T' :: (twoDigits hh ++ ':' :: (twoDigits mi ++ ':' :: (twoDigits ss ++ rest))))
      = some (hh, mi, ss, rest) := by
  have g1 := getnum_twoDigits false hh (':' :: (twoDigits mi ++ ':' :: (twoDigits ss ++ rest)))
    (by omega)
  have g2 := getnum_twoDigits true mi (':' :: (twoDigits ss ++ rest)) (by omega)
  have g3 := getnum_twoDigits true ss rest (by omega)
  have r1 : ¬ 24 ≤ hh := by omega
  have r2 : ¬ 60 ≤ mi := by omega
  have r3 : ¬ 60 ≤ ss := by omega
  simp only [parseClock, skip, if_true, g1, g2, g3, r1, r2, r3, if_false]

/-- The months' table of Go and the days of the months agree on the day of the year. -/
theorem yearDay_table : ∀ b : Bool, ∀ m < 13, 1 ≤ m →
    ((List.range (m - 1)).map (fun i => if i + 1 = 2 ∧ b = true then 29
        else daysBefore.getD (i + 1) 0 - daysBefore.getD (i + 1 - 1) 0)).sum
      = daysBefore.getD (m - 1) 0 + (if b && decide (m ≥ 3) then 1 else 0) := by
  decide

/-- `time.Parse` with the RFC 3339 layout accepts every valid timestamp written in
upper case without a leap second, and the time it gives has the day of the year of
the date written. -/
theorem parseRFC3339_text (ts : Timestamp) (hv : ts.Valid) (hu : ts.UpperCase) :
    ∃ t, parseRFC3339 ts.text = some t ∧ t.YearDay = ts.yearDay := by
  obtain ⟨hy, hm1, hm12, hd1, hd, hh, hmi, -, hfr, hz⟩ := hv
  obtain ⟨hT, hss, hzu⟩ := hu
  have hd31 : ts.day ≤ 31 := by
    have := daysIn_le (isLeap ts.year) ts.month (by omega)
    unfold daysIn at hd
    omega
  obtain ⟨a, b, c, e, f, g, h, k, hl, ha, hb, hc, he, hf, hg, hh', hk, hyv, hmv, hdv⟩ :=
    isoDate_data ts.year ts.month ts.day hy hm12 hd31
  have hzz : (match ts.zone with
      | .z lower => lower = false
      | .num _ hh mm => hh ≤ 23 ∧ mm ≤ 59) := by
    cases hzone : ts.zone with
    | z lower => rw [hzone] at hzu; exact hzu
    | num neg zh zm => rw [hzone] at hz; exact hz
  have hP : parseYMD ts.text.data = some ((ts.year : Int), ts.month, ts.day,
      'T' :: (twoDigits ts.hour ++ ':' :: (twoDigits ts.minute ++ ':' :: (twoDigits ts.second
        ++ ((if ts.frac = [] then [] else '.' :: ts.frac.map digitChar) ++ ts.zone.text))))) := by
    apply (parseYMD_eq_some _ _ _ _ _).2
    refine ⟨a, b, c, e, f, g, h, k, ?_, ha, hb, hc, he, hf, hg, hh', hk, hyv, hmv, hm1, hm12, hdv⟩
    simp only [Timestamp.text, hl, hT, Bool.false_eq_true, if_false, List.cons_append,
      List.nil_append]
  have hC := parseClock_text ts.hour ts.minute ts.second
    ((if ts.frac = [] then [] else '.' :: ts.frac.map digitChar) ++ ts.zone.text) hh hmi hss
  have hF := skipFraction_text ts.frac ts.zone hfr
  have hZ := parseZone_text ts.zone hzz
  have hday : ¬ (ts.day < 1 ∨ ts.day > daysIn ts.month ts.year) := by omega
  refine ⟨⟨dateSec ts.year ts.month ts.day ts.hour ts.minute ts.second - ts.zone.seconds,
    FixedZone ts.zone.seconds⟩, ?_, ?_⟩
  · simp only [parseRFC3339, hP, hC, hF, hZ, ne_eq, not_true_eq_false, if_false, hday]
  · have hA := absDate_dateSec ts.year ts.month ts.day ts.hour ts.minute ts.second hm1 hm12 hd1 hd
      (by omega)
    have hT2 := yearDay_table (isLeap ts.year) ts.month (by omega) hm1
    simp only [Time.YearDay, abs_fixedZone, sub_add_cancel, hA, Timestamp.yearDay]
    have hsum : ((List.range (ts.month - 1)).map (fun i => daysIn (i + 1) ts.year)).sum
        = daysBefore.getD (ts.month - 1) 0
          + (if isLeap ts.year && decide (ts.month ≥ 3) then 1 else 0) := by
      rw [← hT2]
      rfl
    rw [hsum]
    omega

/-! ## The migration pass -/

/-- The selection loop always yields a list when the enclosing `err` is nil: the
accumulator followed by the tasks that are not completed, have a due string and whose
parsed due date (the zero time when parsing fails) has the day of the year of From. -/
theorem tasksToUpdate_eq (From : Time) (tasks acc : List Task) :
    tasksToUpdate none From tasks acc = .ok (acc ++ tasks.filter (fun t =>
      decide (t.Status ≠ "completed") && decide (t.Due ≠ "")
        && decide (((parseRFC3339 t.Due).getD zeroTime).YearDay = From.YearDay))) := by
  induction tasks generalizing acc with
  | nil => simp [tasksToUpdate]
  | cons t rest ih =>
    unfold tasksToUpdate
    rw [List.filter_cons]
    by_cases h1 : t.Status = "completed" ∨ t.Due = ""
    · rw [if_pos h1, ih]
      have hf : (decide (t.Status ≠ "completed") && decide (t.Due ≠ "")
          && decide (((parseRFC3339 t.Due).getD zeroTime).YearDay = From.YearDay)) = false := by
        rcases h1 with h | h <;> simp [h]
      rw [hf]
      rfl
    · rw [if_neg h1]
      push_neg at h1
      simp only []
      by_cases h2 : ((parseRFC3339 t.Due).getD zeroTime).YearDay = From.YearDay
      · rw [if_pos h2, ih]
        have hf : (decide (t.Status ≠ "completed") && decide (t.Due ≠ "")
            && decide (((parseRFC3339 t.Due).getD zeroTime).YearDay = From.YearDay)) = true := by
          simp [h1.1, h1.2, h2]
        rw [hf]
        simp
      · rw [if_neg h2, ih]
        have hf : (decide (t.Status ≠ "completed") && decide (t.Due ≠ "")
            && decide (((parseRFC3339 t.Due).getD zeroTime).YearDay = From.YearDay)) = false := by
          simp [h2]
        rw [hf]
        rfl

theorem text_ne_empty (ts : Timestamp) : ts.text ≠ "" := by
  intro h
  have := congrArg String.length h
  simp [Timestamp.text, isoDate] at this

/-- C3 (as stated, refuted). RFC 3339 allows the letters in lower case and a second of 60,
and `time.Parse` rejects both, after which the code goes on with the zero time, which
is day 1 of its year. The task due "2022-04-05t00:00:00z" (day 95) is not selected for
From = 2022-04-05 and is selected for From = 2022-01-01; the task due
"1990-12-31T23:59:60Z" (day 365) is not selected for From = 1990-12-31. -/
theorem tasksToUpdate_rfc3339_rejected :
    IsRFC3339 "2022-04-05t00:00:00z"
    ∧ (⟨2022, 4, 5, true, 0, 0, 0, [], .z true⟩ : Timestamp).text = "2022-04-05t00:00:00z"
    ∧ (⟨2022, 4, 5, true, 0, 0, 0, [], .z true⟩ : Timestamp).yearDay = 95
    ∧ parseDate "2022-04-05" = some ⟨63784713600, UTC⟩
    ∧ (⟨63784713600, UTC⟩ : Time).YearDay = 95
    ∧ tasksToUpdate none ⟨63784713600, UTC⟩
        [⟨"t1", "Pay rent", "needsAction", "2022-04-05t00:00:00z"⟩] [] = .ok []
    ∧ parseDate "2022-01-01" = some ⟨63776592000, UTC⟩
    ∧ (⟨63776592000, UTC⟩ : Time).YearDay = 1
    ∧ tasksToUpdate none ⟨63776592000, UTC⟩
        [⟨"t1", "Pay rent", "needsAction", "2022-04-05t00:00:00z"⟩] []
      = .ok [⟨"t1", "Pay rent", "needsAction", "2022-04-05t00:00:00z"⟩]
    ∧ IsRFC3339 "1990-12-31T23:59:60Z"
    ∧ (⟨1990, 12, 31, false, 23, 59, 60, [], .z false⟩ : Timestamp).yearDay = 365
    ∧ parseDate "1990-12-31" = some ⟨62798198400, UTC⟩
    ∧ (⟨62798198400, UTC⟩ : Time).YearDay = 365
    ∧ tasksToUpdate none ⟨62798198400, UTC⟩
        [⟨"t1", "Pay rent", "needsAction", "1990-12-31T23:59:60Z"⟩] [] = .ok [] := by
  refine ⟨⟨⟨2022, 4, 5, true, 0, 0, 0, [], .z true⟩, ?_, by decide⟩, by decide, by decide,
    by decide, by decide, ?_, by decide, by decide, ?_,
    ⟨⟨1990, 12, 31, false, 23, 59, 60, [], .z false⟩, ?_, by decide⟩, by decide, by decide,
    by decide, ?_⟩
  · exact ⟨by decide, by decide, by decide, by decide, by decide, by decide, by decide,
      by decide, fun d hd => absurd hd (by simp), trivial⟩
  · rw [tasksToUpdate_eq]
    exact congrArg Except.ok (by decide)
  · rw [tasksToUpdate_eq]
    exact congrArg Except.ok (by decide)
  · exact ⟨by decide, by decide, by decide, by decide, by decide, by decide, by decide,
      by decide, fun d hd => absurd hd (by simp), trivial⟩
  · rw [tasksToUpdate_eq]
    exact congrArg Except.ok (by decide)

/-- C3 (amended). When every non-empty due string is a valid RFC 3339 timestamp written
with upper-case `T` and `Z` and without a leap second, the filter returns, in the order
of the list, exactly the tasks that are not completed, have a non-empty due string and
whose due date, the date written in the timestamp, has the day of the year of From; on
the four tasks of the example with From = 2022-04-05 it returns the first task alone. -/
theorem tasksToUpdate_spec :
    (∀ (From : Time) (tasks : List Task),
      (∀ t ∈ tasks, t.Due ≠ "" → IsUpperRFC3339 t.Due) →
      tasksToUpdate none From tasks [] = .ok (tasks.filter (eligible From))
      ∧ (∀ t ∈ tasks, t.Due = "" → eligible From t = false)
      ∧ (∀ t ∈ tasks, ∀ ts : Timestamp, ts.Valid → ts.UpperCase → t.Due = ts.text →
          (eligible From t = true ↔ (t.Status ≠ "completed" ∧ ts.yearDay = From.YearDay))))
    ∧ (∃ frm, parseDate "2022-04-05" = some frm ∧ tasksToUpdate none frm exampleTasks []
        = .ok [⟨"t1", "Pay rent", "needsAction", "2022-04-05T00:00:00.000Z"⟩]) := by
  constructor
  · intro From tasks hvalid
    refine ⟨?_, ?_, ?_⟩
    · rw [tasksToUpdate_eq, List.nil_append]
      congr 1
      apply List.filter_congr
      intro t ht
      by_cases hdue : t.Due = ""
      · simp [eligible, hdue]
      · obtain ⟨ts, hv, hu, hts⟩ := hvalid t ht hdue
        obtain ⟨due, hd, -⟩ := parseRFC3339_text ts hv hu
        rw [← hts] at hd
        simp [eligible, hd]
    · intro t _ hdue
      simp [eligible, hdue]
    · intro t _ ts hv hu hts
      obtain ⟨due, hd, hyd⟩ := parseRFC3339_text ts hv hu
      rw [← hts] at hd
      have hne : t.Due ≠ "" := by rw [hts]; exact text_ne_empty ts
      simp [eligible, hd, hne, hyd]
  · refine ⟨⟨63784713600, UTC⟩, by decide, ?_⟩
    rw [tasksToUpdate_eq, List.nil_append]
    exact congrArg Except.ok (by decide)

/-- C3 (amended), at the example of the specification, whose due strings are the texts of
2022-04-05 and 2022-04-06 at midnight UTC with three digits of fraction. -/
theorem tasksToUpdate_spec_witness :
    (∀ t ∈ exampleTasks, t.Due ≠ "" → IsUpperRFC3339 t.Due)
    ∧ tasksToUpdate none ⟨63784713600, UTC⟩ exampleTasks []
        = .ok (exampleTasks.filter (eligible ⟨63784713600, UTC⟩))
    ∧ exampleTasks.filter (eligible ⟨63784713600, UTC⟩)
        = [⟨"t1", "Pay rent", "needsAction", "2022-04-05T00:00:00.000Z"⟩] :=
  have h5 : IsUpperRFC3339 "2022-04-05T00:00:00.000Z" :=
    ⟨⟨2022, 4, 5, false, 0, 0, 0, [0, 0, 0], .z false⟩,
      ⟨by decide, by decide, by decide, by decide, by decide, by decide, by decide, by decide,
        by decide, trivial⟩, ⟨rfl, by decide, rfl⟩, by decide⟩
  have h6 : IsUpperRFC3339 "2022-04-06T00:00:00.000Z" :=
    ⟨⟨2022, 4, 6, false, 0, 0, 0, [0, 0, 0], .z false⟩,
      ⟨by decide, by decide, by decide, by decide, by decide, by decide, by decide, by decide,
        by decide, trivial⟩, ⟨rfl, by decide, rfl⟩, by decide⟩
  have hall : ∀ t ∈ exampleTasks, t.Due ≠ "" → IsUpperRFC3339 t.Due := by
    intro t ht hne
    simp only [exampleTasks, List.mem_cons, List.mem_singleton, List.not_mem_nil, or_false] at ht
    rcases ht with rfl | rfl | rfl | rfl
    · exact h5
    · exact h5
    · exact absurd rfl hne
    · exact h6
  ⟨hall, (tasksToUpdate_spec.1 ⟨63784713600, UTC⟩ exampleTasks hall).1, by decide⟩

theorem mem_updateLoop (srv : Service) (listId : String) (To : Time) (selected : List Task)
    (n : Nat) (l id : String) (sent : Task)
    (h : Event.update l id sent ∈ updateLoop srv listId To selected n) :
    ∃ t ∈ selected, l = listId ∧ id = t.Id ∧ sent = setDue t To := by
  induction selected generalizing n with
  | nil => simp [updateLoop] at h
  | cons t rest ih =>
    simp only [updateLoop, List.mem_cons, Event.update.injEq, reduceCtorEq, false_or] at h
    rcases h with ⟨h1, h2, h3⟩ | h
    · exact ⟨t, List.mem_cons_self _ _, h1, h2, h3⟩
    · obtain ⟨u, hu, hr⟩ := ih (n + 1) h
      exact ⟨u, List.mem_cons_of_mem _ hu, hr⟩

/-- C4. Every update call of a run carries a task of the list fetched from the service
in which only the due date is rewritten: identifier, title and status are those of the
original, the call is addressed to that identifier, and the due date is To formatted with
the RFC 3339 layout. -/
theorem update_call_frame (srv : Service) (tt : timeTargets) (l id : String) (sent : Task)
    (h : Event.update l id sent ∈ (migrate srv tt).events) :
    ∃ (target : TaskList) (tsks : List Task) (t : Task),
      srv.tasks target.Id = .ok tsks ∧ t ∈ tsks ∧ l = target.Id ∧ id = t.Id
        ∧ sent = { t with Due := tt.To.FormatRFC3339 }
        ∧ sent.Id = t.Id ∧ sent.Title = t.Title ∧ sent.Status = t.Status
        ∧ sent.Due = tt.To.FormatRFC3339 := by
  unfold migrate at h
  split at h
  · simp at h
  rename_i items _
  split at h
  · simp at h
  split at h
  · simp at h
  · simp at h
  rename_i target _
  split at h
  · simp at h
  rename_i tsks htsks
  rw [tasksToUpdate_eq] at h
  simp only [List.nil_append, List.mem_cons, reduceCtorEq, false_or] at h
  obtain ⟨t, ht, h1, h2, h3⟩ := mem_updateLoop _ _ _ _ _ _ _ _ h
  exact ⟨target, tsks, t, htsks, (List.mem_filter.1 ht).1, h1, h2, h3,
    by rw [h3]; rfl, by rw [h3]; rfl, by rw [h3]; rfl, by rw [h3]; rfl⟩

/-- C4, on the run that moves the first task of the example to 2023-04-05. -/
theorem update_call_frame_witness :
    ∃ (target : TaskList) (tsks : List Task) (t : Task),
      (serviceOf exampleTasks).tasks target.Id = .ok tsks ∧ t ∈ tsks ∧ "L" = target.Id
        ∧ "t1" = t.Id
        ∧ (⟨"t1", "Pay rent", "needsAction", "2023-04-05T00:00:00Z"⟩ : Task)
            = { t with Due := (⟨63816249600, UTC⟩ : Time).FormatRFC3339 }
        ∧ "t1" = t.Id ∧ "Pay rent" = t.Title ∧ "needsAction" = t.Status
        ∧ "2023-04-05T00:00:00Z" = (⟨63816249600, UTC⟩ : Time).FormatRFC3339 :=
  update_call_frame (serviceOf exampleTasks) ⟨⟨63816249600, UTC⟩, ⟨63784713600, UTC⟩⟩ "L" "t1"
    ⟨"t1", "Pay rent", "needsAction", "2023-04-05T00:00:00Z"⟩ (by decide)

theorem updateLoop_length (srv : Service) (listId : String) (To : Time) (selected : List Task)
    (n : Nat) : (updateLoop srv listId To selected n).length = 2 * selected.length := by
  induction selected generalizing n with
  | nil => rfl
  | cons t rest ih => simp only [updateLoop, List.length_cons, ih]; omega

theorem updateCalls_updateLoop (srv : Service) (listId : String) (To : Time)
    (selected : List Task) (n : Nat) :
    updateCalls (updateLoop srv listId To selected n)
      = selected.map (fun t => (listId, t.Id, setDue t To)) := by
  induction selected generalizing n with
  | nil => rfl
  | cons t rest ih =>
    simp only [updateLoop, updateCalls, List.map_cons, ih]
    rfl

theorem updateLoop_get (srv : Service) (listId : String) (To : Time) (selected : List Task)
    (n i : Nat) (t : Task) (h : selected[i]? = some t) :
    (updateLoop srv listId To selected n)[2 * i]? = some (.update listId t.Id (setDue t To))
    ∧ (updateLoop srv listId To selected n)[2 * i + 1]?
        = some (.print (match srv.update (n + i) listId t.Id (setDue t To) with
            | some e => failedText t To e
            | none => movedText t To)) := by
  induction selected generalizing n i with
  | nil => simp at h
  | cons u rest ih =>
    cases i with
    | zero =>
      simp only [List.getElem?_cons_zero, Option.some.injEq] at h
      subst h
      simp only [updateLoop, Nat.mul_zero, List.getElem?_cons_zero, Nat.zero_add,
        List.getElem?_cons_succ, Nat.add_zero, true_and]
      exact ⟨rfl, rfl⟩
    | succ j =>
      simp only [List.getElem?_cons_succ] at h
      obtain ⟨h1, h2⟩ := ih (n + 1) j h
      have e1 : 2 * (j + 1) = (2 * j + 1) + 1 := by omega
      have e2 : n + (j + 1) = n + 1 + j := by omega
      simp only [updateLoop, e1, e2, List.getElem?_cons_succ]
      exact ⟨h1, h2⟩

/-- C5. Whatever updates succeed or fail, the update loop issues one update call per
selected task, in the order of the list, each followed by the one line that reports its
outcome: for a failure the line "Failed to move task: …" with the title, the identifier,
the target date and the error, for a success the line "Moved Task: …" with the title,
the identifier and the target date. The sequence of calls is the same for every pattern
of failures, so a failed update never keeps a later task from being updated. -/
theorem updateLoop_trace (srv : Service) (listId : String) (To : Time) (selected : List Task) :
    (updateLoop srv listId To selected 0).length = 2 * selected.length
    ∧ updateCalls (updateLoop srv listId To selected 0)
        = selected.map (fun t => (listId, t.Id, { t with Due := To.FormatRFC3339 }))
    ∧ (∀ (i : Nat) (t : Task), selected[i]? = some t →
        (updateLoop srv listId To selected 0)[2 * i]?
          = some (.update listId t.Id { t with Due := To.FormatRFC3339 })
        ∧ (∀ e, srv.update i listId t.Id { t with Due := To.FormatRFC3339 } = some e →
            (updateLoop srv listId To selected 0)[2 * i + 1]?
              = some (.print ("Failed to move task: " ++ t.Title ++ " (" ++ t.Id ++ ") to "
                  ++ To.FormatDate ++ "\n with error: " ++ e)))
        ∧ (srv.update i listId t.Id { t with Due := To.FormatRFC3339 } = none →
            (updateLoop srv listId To selected 0)[2 * i + 1]?
              = some (.print ("Moved Task: " ++ t.Title ++ " (" ++ t.Id ++ ") to "
                  ++ To.FormatDate ++ "\n")))) := by
  refine ⟨updateLoop_length _ _ _ _ _, updateCalls_updateLoop _ _ _ _ _, ?_⟩
  intro i t h
  obtain ⟨h1, h2⟩ := updateLoop_get srv listId To selected 0 i t h
  rw [Nat.zero_add] at h2
  refine ⟨h1, ?_, ?_⟩
  · intro e he
    rw [h2]
    have he2 : srv.update i listId t.Id (setDue t To) = some e := he
    rw [he2]
    rfl
  · intro he
    rw [h2]
    have he2 : srv.update i listId t.Id (setDue t To) = none := he
    rw [he2]
    rfl

/-- C5, on the two tasks the filter selects from `dueTasks` for From = 2022-04-05, with To
= 2023-04-05 and a service on which the first update fails and the second succeeds: the
failure of the first task is reported, and the second task is updated and reported all
the same. -/
theorem updateLoop_trace_witness :
    tasksToUpdate none ⟨63784713600, UTC⟩ dueTasks []
      = .ok [⟨"t1", "Pay rent", "needsAction", "2022-04-05T00:00:00.000Z"⟩,
          ⟨"t5", "Water plants", "needsAction", "2022-04-05T00:00:00.000Z"⟩]
    ∧ (updateLoop flakyService "L" ⟨63816249600, UTC⟩
          [⟨"t1", "Pay rent", "needsAction", "2022-04-05T00:00:00.000Z"⟩,
            ⟨"t5", "Water plants", "needsAction", "2022-04-05T00:00:00.000Z"⟩] 0)[2 * 0]?
        = some (.update "L" "t1" ⟨"t1", "Pay rent", "needsAction", "2023-04-05T00:00:00Z"⟩)
    ∧ (updateLoop flakyService "L" ⟨63816249600, UTC⟩
          [⟨"t1", "Pay rent", "needsAction", "2022-04-05T00:00:00.000Z"⟩,
            ⟨"t5", "Water plants", "needsAction", "2022-04-05T00:00:00.000Z"⟩] 0)[2 * 0 + 1]?
        = some (.print ("Failed to move task: " ++ "Pay rent" ++ " (" ++ "t1" ++ ") to "
            ++ (⟨63816249600, UTC⟩ : Time).FormatDate ++ "\n with error: " ++ "quota exceeded"))
    ∧ (updateLoop flakyService "L" ⟨63816249600, UTC⟩
          [⟨"t1", "Pay rent", "needsAction", "2022-04-05T00:00:00.000Z"⟩,
            ⟨"t5", "Water plants", "needsAction", "2022-04-05T00:00:00.000Z"⟩] 0)[2 * 1]?
        = some (.update "L" "t5" ⟨"t5", "Water plants", "needsAction", "2023-04-05T00:00:00Z"⟩)
    ∧ (updateLoop flakyService "L" ⟨63816249600, UTC⟩
          [⟨"t1", "Pay rent", "needsAction", "2022-04-05T00:00:00.000Z"⟩,
            ⟨"t5", "Water plants", "needsAction", "2022-04-05T00:00:00.000Z"⟩] 0)[2 * 1 + 1]?
        = some (.print ("Moved Task: " ++ "Water plants" ++ " (" ++ "t5" ++ ") to "
            ++ (⟨63816249600, UTC⟩ : Time).FormatDate ++ "\n"))
    ∧ (⟨63816249600, UTC⟩ : Time).FormatDate = "2023-04-05" :=
  ⟨by rw [tasksToUpdate_eq]; exact congrArg Except.ok (by decide),
    ((updateLoop_trace flakyService "L" ⟨63816249600, UTC⟩
      [⟨"t1", "Pay rent", "needsAction", "2022-04-05T00:00:00.000Z"⟩,
        ⟨"t5", "Water plants", "needsAction", "2022-04-05T00:00:00.000Z"⟩]).2.2 0
      ⟨"t1", "Pay rent", "needsAction", "2022-04-05T00:00:00.000Z"⟩ (by decide)).1,
    ((updateLoop_trace flakyService "L" ⟨63816249600, UTC⟩
      [⟨"t1", "Pay rent", "needsAction", "2022-04-05T00:00:00.000Z"⟩,
        ⟨"t5", "Water plants", "needsAction", "2022-04-05T00:00:00.000Z"⟩]).2.2 0
      ⟨"t1", "Pay rent", "needsAction", "2022-04-05T00:00:00.000Z"⟩ (by decide)).2.1
      "quota exceeded" rfl,
    ((updateLoop_trace flakyService "L" ⟨63816249600, UTC⟩
      [⟨"t1", "Pay rent", "needsAction", "2022-04-05T00:00:00.000Z"⟩,
        ⟨"t5", "Water plants", "needsAction", "2022-04-05T00:00:00.000Z"⟩]).2.2 1
      ⟨"t5", "Water plants", "needsAction", "2022-04-05T00:00:00.000Z"⟩ (by decide)).1,
    ((updateLoop_trace flakyService "L" ⟨63816249600, UTC⟩
      [⟨"t1", "Pay rent", "needsAction", "2022-04-05T00:00:00.000Z"⟩,
        ⟨"t5", "Water plants", "needsAction", "2022-04-05T00:00:00.000Z"⟩]).2.2 1
      ⟨"t5", "Water plants", "needsAction", "2022-04-05T00:00:00.000Z"⟩ (by decide)).2.2 rfl,
    by decide⟩

/-- C1 (code defect). With the list "My Tasks" in second position the lookup does not
select it: the first iteration of the loop calls `log.Fatal`, and the run ends with the
message that there was no such list. -/
theorem findTargetTaskList_second :
    findTargetTaskList [⟨"a", "Groceries"⟩, ⟨"b", "My Tasks"⟩]
      = .error "There was no task list called \"My Tasks\""
    ∧ migrate ⟨.ok [⟨"a", "Groceries"⟩, ⟨"b", "My Tasks"⟩], fun _ => .ok exampleTasks,
        fun _ _ _ _ => none⟩ ⟨⟨63816249600, UTC⟩, ⟨63784713600, UTC⟩⟩
      = ⟨[.listTasklists], .fatal "There was no task list called \"My Tasks\""⟩ := by
  constructor
  · rfl
  · decide

/-- C2 (code defect). A task due on 2021-04-05 is selected for From = 2022-04-05: both
dates are day 95 of their year, and the year is not compared. -/
theorem tasksToUpdate_other_year :
    tasksToUpdate none ⟨63784713600, UTC⟩
        [⟨"t1", "Pay rent", "needsAction", "2021-04-05T00:00:00.000Z"⟩] []
      = .ok [⟨"t1", "Pay rent", "needsAction", "2021-04-05T00:00:00.000Z"⟩]
    ∧ parseDate "2022-04-05" = some ⟨63784713600, UTC⟩
    ∧ (⟨63784713600, UTC⟩ : Time).Date = (2022, 4, 5)
    ∧ (parseRFC3339 "2021-04-05T00:00:00.000Z").map Time.Date = some (2021, 4, 5)
    ∧ (parseRFC3339 "2021-04-05T00:00:00.000Z").map Time.YearDay = some 95
    ∧ (⟨63784713600, UTC⟩ : Time).YearDay = 95 := by
  refine ⟨?_, by decide, by decide, by decide, by decide, by decide⟩
  rw [tasksToUpdate_eq, List.nil_append]
  exact congrArg Except.ok (by decide)

/-- C8 (code defect). With `--from 2022-04-05 --to 2023-04-05` and one task due on
2022-04-05, the first run moves the task to 2023-04-05, and a second run on the updated
list issues the same update again: the moved task is still day 95 of its year. -/
theorem migrate_twice_updates_again :
    parseTimeTargets zeroTime zeroTime "2023-04-05" "2022-04-05"
      = .ok ⟨⟨63816249600, UTC⟩, ⟨63784713600, UTC⟩⟩
    ∧ updateCalls (migrate (serviceOf [⟨"t1", "Pay rent", "needsAction",
          "2022-04-05T00:00:00.000Z"⟩]) ⟨⟨63816249600, UTC⟩, ⟨63784713600, UTC⟩⟩).events
      = [("L", "t1", ⟨"t1", "Pay rent", "needsAction", "2023-04-05T00:00:00Z"⟩)]
    ∧ applyUpdates [⟨"t1", "Pay rent", "needsAction", "2022-04-05T00:00:00.000Z"⟩]
        (migrate (serviceOf [⟨"t1", "Pay rent", "needsAction",
          "2022-04-05T00:00:00.000Z"⟩]) ⟨⟨63816249600, UTC⟩, ⟨63784713600, UTC⟩⟩).events
      = [⟨"t1", "Pay rent", "needsAction", "2023-04-05T00:00:00Z"⟩]
    ∧ updateCalls (migrate (serviceOf [⟨"t1", "Pay rent", "needsAction",
          "2023-04-05T00:00:00Z"⟩]) ⟨⟨63816249600, UTC⟩, ⟨63784713600, UTC⟩⟩).events
      = [("L", "t1", ⟨"t1", "Pay rent", "needsAction", "2023-04-05T00:00:00Z"⟩)] := by
  refine ⟨?_, by decide, by decide, by decide⟩
  have h1 : parseDate "2023-04-05" = some ⟨63816249600, UTC⟩ := by decide
  have h2 : parseDate "2022-04-05" = some ⟨63784713600, UTC⟩ := by decide
  unfold parseTimeTargets
  rw [if_neg (by decide), if_neg (by decide), if_neg (by decide), h1,
    if_neg (by decide), if_neg (by decide), if_neg (by decide), h2]

/-- C9 (as stated, refuted). With no task lists the run of the example service does not
end in `log.Fatal`: it returns normally. -/
theorem migrate_no_lists_not_fatal :
    ¬ ∃ msg, (migrate ⟨.ok [], fun _ => .ok exampleTasks, fun _ _ _ _ => none⟩
      ⟨⟨63816249600, UTC⟩, ⟨63784713600, UTC⟩⟩).exit = .fatal msg := by
  rintro ⟨msg, h⟩
  exact absurd h (by simp [migrate])

/-- C9 (amended). When the service returns zero task lists, the run prints "No task
lists found." and returns normally; its only remote call is the listing of the task
lists, so no task is fetched or updated. -/
theorem migrate_no_lists (srv : Service) (tt : timeTargets) (h : srv.tasklists = .ok []) :
    migrate srv tt = ⟨[.listTasklists, .print "No task lists found."], .done⟩ := by
  unfold migrate
  rw [h]
  rfl

/-- C9 (amended), on a service without task lists. -/
theorem migrate_no_lists_witness :
    migrate ⟨.ok [], fun _ => .ok exampleTasks, fun _ _ _ _ => none⟩
        ⟨⟨63816249600, UTC⟩, ⟨63784713600, UTC⟩⟩
      = ⟨[.listTasklists, .print "No task lists found."], .done⟩ :=
  migrate_no_lists _ _ rfl

/-! ## The callback handler -/

/-- C10 (as stated, refuted). A request without any parameter carries no `code`, and the
handler still delivers a value, the empty string, to the waiting flow. -/
theorem handler_sends_without_code :
    (handler emptyChannel []).chan.received = some ""
    ∧ ¬ carries [] "code"
    ∧ ¬ ((handler emptyChannel []).chan.received ≠ emptyChannel.received
          ↔ (carries [] "code" ∧ ¬ carries [] "error")) := by
  have hc : ¬ carries [] "code" := by
    rintro ⟨v, hv⟩
    exact absurd hv (by simp)
  refine ⟨by decide, hc, ?_⟩
  intro h
  exact hc (h.1 (by decide)).1

theorem length_eq_zero_iff (s : String) : s.length = 0 ↔ s = "" := by
  constructor
  · intro h
    apply String.ext
    exact List.length_eq_zero.1 h
  · rintro rfl
    rfl

theorem get_of_not_carries (query : List (String × String)) (key : String)
    (hk : ¬ carries query key) : Get query key = "" := by
  unfold Get
  cases hf : List.find? (fun kv => decide (kv.1 = key)) query with
  | none => rfl
  | some kv =>
    exfalso
    apply hk
    have hm := List.mem_of_find?_eq_some hf
    have hp := List.find?_some hf
    simp only [decide_eq_true_eq] at hp
    exact ⟨kv.2, by rw [← hp]; exact hm⟩

/-- C10 (amended). The handler sends on the hand-off channel exactly when the `error`
parameter of the request is absent or empty, and the value is the first `code`
parameter, the empty string when there is none. The first value sent is delivered to
the waiting flow and the second stays in the one-slot buffer, each followed by the
success page; a later send blocks and no page is written. With a non-empty `error`
parameter the handler writes the error page with that text and sends nothing. -/
theorem handler_spec (ch : Channel) (query : List (String × String)) :
    (Get query "error" ≠ "" → handler ch query = ⟨ch, some
        ("<h1>Google Task Mover</h1>\n<p>There was an error completing the oauth Workflow: "
          ++ Get query "error" ++ "</p>")⟩)
    ∧ (Get query "error" = "" → ch.received = none →
        handler ch query = ⟨⟨some (Get query "code"), ch.parked⟩, some
          "<h1>Google Task Mover</h1>\n<p>Received the code from Google. You can close this window.</p>"⟩)
    ∧ (Get query "error" = "" → ch.received ≠ none → ch.parked = none →
        handler ch query = ⟨⟨ch.received, some (Get query "code")⟩, some
          "<h1>Google Task Mover</h1>\n<p>Received the code from Google. You can close this window.</p>"⟩)
    ∧ (Get query "error" = "" → ch.received ≠ none → ch.parked ≠ none →
        handler ch query = ⟨ch, none⟩)
    ∧ ((handler ch query).chan.received ≠ ch.received
        ↔ (Get query "error" = "" ∧ ch.received = none))
    ∧ (¬ carries query "error" → Get query "error" = "")
    ∧ (¬ carries query "code" → Get query "code" = "")
    ∧ (∀ v rest, query = ("code", v) :: rest → Get query "code" = v) := by
  obtain ⟨r, p⟩ := ch
  have h1 : Get query "error" ≠ "" → handler ⟨r, p⟩ query = ⟨⟨r, p⟩, some
      ("<h1>Google Task Mover</h1>\n<p>There was an error completing the oauth Workflow: "
        ++ Get query "error" ++ "</p>")⟩ := by
    intro h
    have : ¬ (Get query "error").length = 0 := fun e => h ((length_eq_zero_iff _).1 e)
    simp [handler, this, errorHTML]
  have h0 : Get query "error" = "" → handler ⟨r, p⟩ query
      = (match send ⟨r, p⟩ (Get query "code") with
        | none => ⟨⟨r, p⟩, none⟩
        | some ch => ⟨ch, some successHTML⟩) := by
    intro h
    simp [handler, h]
  refine ⟨h1, ?_, ?_, ?_, ?_, get_of_not_carries query "error",
    get_of_not_carries query "code", ?_⟩
  · intro he hr
    simp only at hr
    subst hr
    rw [h0 he]
    rfl
  · intro he hr hp
    simp only at hr hp
    subst hp
    rw [h0 he]
    cases r with
    | none => exact absurd rfl hr
    | some c => rfl
  · intro he hr hp
    simp only at hr hp
    rw [h0 he]
    cases r with
    | none => exact absurd rfl hr
    | some c =>
      cases p with
      | none => exact absurd rfl hp
      | some q => rfl
  · constructor
    · intro hne
      by_cases he : Get query "error" = ""
      · refine ⟨he, ?_⟩
        rw [h0 he] at hne
        cases r with
        | none => rfl
        | some c =>
          cases p with
          | none => exact absurd rfl hne
          | some q => exact absurd rfl hne
      · rw [h1 he] at hne
        exact absurd rfl hne
    · rintro ⟨he, hr⟩
      simp only at hr
      subst hr
      rw [h0 he]
      simp [send]
  · rintro v rest rfl
    simp [Get]

/-- C10 (amended), on a request that reports an error and a code, and on three requests
with a code in a row: delivered, parked, blocked. -/
theorem handler_spec_witness :
    (Get [("error", "access_denied"), ("code", "4/abc")] "error" ≠ ""
      ∧ handler emptyChannel [("error", "access_denied"), ("code", "4/abc")]
        = ⟨emptyChannel, some
          ("<h1>Google Task Mover</h1>\n<p>There was an error completing the oauth Workflow: "
            ++ Get [("error", "access_denied"), ("code", "4/abc")] "error" ++ "</p>")⟩)
    ∧ handler emptyChannel [("code", "4/abc")] = ⟨⟨some (Get [("code", "4/abc")] "code"), none⟩,
        some "<h1>Google Task Mover</h1>\n<p>Received the code from Google. You can close this window.</p>"⟩
    ∧ handler ⟨some "4/abc", none⟩ [("code", "4/def")]
        = ⟨⟨some "4/abc", some (Get [("code", "4/def")] "code")⟩,
          some "<h1>Google Task Mover</h1>\n<p>Received the code from Google. You can close this window.</p>"⟩
    ∧ handler ⟨some "4/abc", some "4/def"⟩ [("code", "4/ghi")]
        = ⟨⟨some "4/abc", some "4/def"⟩, none⟩ :=
  ⟨⟨by decide,
      (handler_spec emptyChannel [("error", "access_denied"), ("code", "4/abc")]).1 (by decide)⟩,
    (handler_spec emptyChannel [("code", "4/abc")]).2.1 (by decide) rfl,
    (handler_spec ⟨some "4/abc", none⟩ [("code", "4/def")]).2.2.1 (by decide) (by decide) rfl,
    (handler_spec ⟨some "4/abc", some "4/def"⟩ [("code", "4/ghi")]).2.2.2.1 (by decide)
      (by decide) (by decide)⟩

end MoveGtasks
